import Mathlib

/-!
# gomobile_test: the event loop of `main.go`

A shallow embedding of `src/main.go`: the package-level variables and the two
loop-local variables of `main` form an explicit `State`, every handler is a
function from states to an `Outcome` (the next state together with the calls it
issued, or a crash), and the host is a list of events.

`float32` is modelled exactly: a finite value is a sign and a magnitude counted
in units of `2^-149` (the smallest subnormal), and every operation computes the
exact result and rounds it to 24 significant bits, to nearest, ties to even.
Go's `int` is modelled by `Int`: the only integer operation of the program,
division by the constant 2, cannot overflow.

A method call on a nil `gl.Context` (a nil interface) panics, and is a crash of
the model. The calls on `fps` and `images` enter library code that can panic as
well: `fps.Draw` returns at once for an empty size and panics on a nil receiver
otherwise, `fps.Release` panics on a nil receiver, and `glutil.NewImages`
panics when its own program does not link. What these calls do on a non-nil
receiver depends on the state of the library objects, which the program does
not see; it is given by a `Library`, and the properties hold for every one.
-/

namespace GomobileTest

/-! ## float32 -/

/-- IEEE-754 binary32. `fin neg mag` is the finite value `± mag * 2^-149`;
both zeros, both infinities and a single NaN are kept apart. -/
inductive F32 where
  | fin (neg : Bool) (mag : Nat)
  | inf (neg : Bool)
  | nan
deriving DecidableEq, Repr

namespace F32

/-- Number of halvings that bring `n` below `2^24` (the first argument bounds
the recursion; `n` itself is always enough). -/
def expAux : Nat → Nat → Nat
  | 0, _ => 0
  | fuel + 1, n => if n < 2 ^ 24 then 0 else expAux fuel (n / 2) + 1

/-- Exponent, in units of `2^-149`, of the binade that holds the magnitude `n`:
the spacing of the float32 grid around `n` is `2 ^ expOf n`. -/
def expOf (n : Nat) : Nat := expAux n n

/-- Round the exact magnitude `p / q` (in units of `2^-149`, `0 < q`) to the
float32 grid: nearest multiple of the spacing, ties to the even multiple. -/
def roundMag (p q : Nat) : Nat :=
  (if 2 * (p % (q * 2 ^ expOf (p / q))) < q * 2 ^ expOf (p / q) then
      p / (q * 2 ^ expOf (p / q))
    else if q * 2 ^ expOf (p / q) < 2 * (p % (q * 2 ^ expOf (p / q))) then
      p / (q * 2 ^ expOf (p / q)) + 1
    else
      p / (q * 2 ^ expOf (p / q)) + p / (q * 2 ^ expOf (p / q)) % 2)
    * 2 ^ expOf (p / q)

/-- Magnitude `2^128` in units of `2^-149`: the first magnitude that no longer
is a finite float32. -/
def overflowMag : Nat := 2 ^ 149 * 2 ^ 128

/-- A rounded magnitude with its sign: finite below `2^128`, infinite from there. -/
def ofMag (neg : Bool) (k : Nat) : F32 :=
  if k < overflowMag then fin neg k else inf neg

/-- Conversion of the exact non-negative constant `num / den` to float32
(how Go converts an untyped constant such as `0.01`, `0.4` or `1`). -/
def ofConst (num den : Nat) : F32 := ofMag false (roundMag (num * 2 ^ 149) den)

/-- Conversion `float32(n)` of an integer. -/
def ofInt (n : Int) : F32 := ofMag (decide (n < 0)) (roundMag (n.natAbs * 2 ^ 149) 1)

/-- Float32 addition `x + y`. -/
def add : F32 → F32 → F32
  | nan, _ => nan
  | _, nan => nan
  | inf a, inf b => if a = b then inf a else nan
  | inf a, fin _ _ => inf a
  | fin _ _, inf b => inf b
  | fin a x, fin b y =>
    if a = b then ofMag a (roundMag (x + y) 1)
    else if x = y then fin false 0
    else if y < x then ofMag a (roundMag (x - y) 1)
    else ofMag b (roundMag (y - x) 1)

/-- Float32 division `x / y`. -/
def div : F32 → F32 → F32
  | nan, _ => nan
  | _, nan => nan
  | inf _, inf _ => nan
  | inf a, fin b _ => inf (xor a b)
  | fin a _, inf b => fin (xor a b) 0
  | fin a x, fin b y =>
    if y = 0 then (if x = 0 then nan else inf (xor a b))
    else ofMag (xor a b) (roundMag (x * 2 ^ 149) y)

/-- Position of a value on the extended number line, in units of `2^-149`;
NaN has none. Both zeros sit at 0. -/
def key : F32 → Option Int
  | fin false k => some (k : Int)
  | fin true k => some (-(k : Int))
  | inf false => some (overflowMag : Int)
  | inf true => some (-(overflowMag : Int))
  | nan => none

/-- Float32 comparison `x > y` (false as soon as one side is NaN). -/
def gt (x y : F32) : Bool :=
  match key x, key y with
  | some a, some b => decide (b < a)
  | _, _ => false

/-- The real number a finite float32 stands for. -/
def toRat : F32 → Option ℚ
  | fin false k => some ((k : ℚ) / 2 ^ 149)
  | fin true k => some (-((k : ℚ) / 2 ^ 149))
  | inf _ => none
  | nan => none

/-- The 32-bit encoding: sign, biased exponent, 23 bits of fraction. -/
def bits : F32 → Nat
  | fin s k => (if s then 2 ^ 31 else 0) + expOf (2 * k) * 2 ^ 23 +
      (k / 2 ^ (expOf (2 * k) - 1) - (if expOf (2 * k) = 0 then 0 else 2 ^ 23))
  | inf s => (if s then 2 ^ 31 else 0) + 255 * 2 ^ 23
  | nan => 255 * 2 ^ 23 + 2 ^ 22

/-- The four bytes of the encoding, least significant first. -/
def bytesLE (x : F32) : List Nat :=
  [bits x % 256, bits x / 2 ^ 8 % 256, bits x / 2 ^ 16 % 256, bits x / 2 ^ 24 % 256]

/-- The constant `0`. -/
def zero : F32 := ofConst 0 1

/-- The constant `1`. -/
def one : F32 := ofConst 1 1

end F32

/-! ## Handles, events and calls -/

/-- Value of type `gl.Program`. -/
structure Program where
  Init : Bool
  Value : Nat
deriving DecidableEq, Repr

/-- Value of type `gl.Attrib`. -/
structure Attrib where
  Value : Nat
deriving DecidableEq, Repr

/-- Value of type `gl.Uniform`. -/
structure Uniform where
  Value : Int
deriving DecidableEq, Repr

/-- Value of type `gl.Buffer`. -/
structure Buffer where
  Value : Nat
deriving DecidableEq, Repr

/-- Target of a non-nil `*glutil.Images`. -/
structure Images where
  id : Nat
deriving DecidableEq, Repr

/-- Target of a non-nil `*debug.FPS`. -/
structure FPS where
  id : Nat
deriving DecidableEq, Repr

/-- A non-nil `gl.Context`, given by the answers the driver returns to the
calls `onStart` makes on it. Drawing and deleting calls return nothing.
`newImages` is what `glutil.NewImages(glctx)` returns, `none` when it panics
(the program it creates for itself does not link); `newFPS` is what
`debug.NewFPS` returns. -/
structure GLContext where
  createProgram : Program × Option String
  createBuffer : Buffer
  positionLocation : Attrib
  colorLocation : Uniform
  offsetLocation : Uniform
  newImages : Option Images
  newFPS : FPS
deriving DecidableEq, Repr

/-- Result of `e.Crosses(lifecycle.StageVisible)`. -/
inductive Cross where
  | CrossNone
  | CrossOn
  | CrossOff
deriving DecidableEq, Repr

/-- A `lifecycle.Event`: how it crosses `StageVisible`, and its `DrawContext`
as the type assertion `.(gl.Context)` sees it (`none`: not a `gl.Context`). -/
structure LifecycleEvent where
  Crosses : Cross
  DrawContext : Option GLContext
deriving DecidableEq, Repr

/-- A `size.Event`, with the two fields the program reads. -/
structure SizeEvent where
  WidthPx : Int
  HeightPx : Int
deriving DecidableEq, Repr

/-- A `paint.Event`. -/
structure PaintEvent where
  External : Bool
deriving DecidableEq, Repr

/-- A `touch.Event`, with the two fields the program reads. -/
structure TouchEvent where
  X : F32
  Y : F32
deriving DecidableEq, Repr

/-- What `a.Filter(e)` hands to the type switch of `main`. -/
inductive Event where
  | lifecycle (e : LifecycleEvent)
  | size (e : SizeEvent)
  | paint (e : PaintEvent)
  | touch (e : TouchEvent)
  | other
deriving DecidableEq, Repr

/-- The lines the program logs. -/
inductive LogMsg where
  | startMain
  | exitMain
  | lifecycleEvent (e : LifecycleEvent)
  | crossOn
  | crossOff
  | crossOther
  | sizeEvent (e : SizeEvent)
  | paintEvent (e : PaintEvent)
  | touchEvent (e : TouchEvent)
  | unhandled
  | programError (err : String)
deriving DecidableEq, Repr

/-- The GL constants the program passes. -/
inductive GLEnum where
  | ARRAY_BUFFER
  | STATIC_DRAW
  | COLOR_BUFFER_BIT
  | FLOAT
  | TRIANGLES
  | TRIANGLE_STRIP
deriving DecidableEq, Repr

/-- Every call the program makes on the outside world, with its arguments.
Calls on `fps` and `images` carry the receiver, which may be nil. -/
inductive Action where
  | log (m : LogMsg)
  | createProgram (vertexSrc fragmentSrc : String)
  | createBuffer
  | bindBuffer (target : GLEnum) (b : Buffer)
  | bufferData (target : GLEnum) (data : List Nat) (usage : GLEnum)
  | getAttribLocation (p : Program) (name : String)
  | getUniformLocation (p : Program) (name : String)
  | newImages
  | newFPS (images : Option Images)
  | clearColor (r g b a : F32)
  | clear (mask : GLEnum)
  | useProgram (p : Program)
  | uniform4f (dst : Uniform) (v0 v1 v2 v3 : F32)
  | uniform2f (dst : Uniform) (v0 v1 : F32)
  | enableVertexAttribArray (a : Attrib)
  | vertexAttribPointer (a : Attrib) (size : Nat) (ty : GLEnum) (normalized : Bool)
      (stride offset : Nat)
  | drawArrays (mode : GLEnum) (first count : Nat)
  | disableVertexAttribArray (a : Attrib)
  | fpsDraw (recv : Option FPS) (sz : SizeEvent)
  | deleteProgram (p : Program)
  | deleteBuffer (b : Buffer)
  | fpsRelease (recv : Option FPS)
  | imagesRelease (recv : Option Images)
  | publish
  | send (e : PaintEvent)
deriving DecidableEq, Repr

/-- A call on the GL context or on the `fps` / `images` helpers (everything but
logging, `a.Publish` and `a.Send`). -/
def Action.isGL : Action → Bool
  | .log _ => false
  | .publish => false
  | .send _ => false
  | _ => true

/-! ## State -/

/-- The package-level variables of `main.go`, the two variables `glctx` and
`sz` local to the event loop, and in `lib` the state of the library objects
behind `fps` and `images`, which the program itself never reads. -/
structure State where
  images : Option Images
  fps : Option FPS
  program : Program
  position : Attrib
  offset : Uniform
  color : Uniform
  buf : Buffer
  green : F32
  touchX : F32
  touchY : F32
  glctx : Option GLContext
  sz : SizeEvent
  lib : Nat
deriving DecidableEq, Repr

/-- What the library does with the calls made on a non-nil `*debug.FPS` and
on `images`: from the state of its objects (encoded as a number) to their next
state, `none` when the call panics. `created` is their state once
`glutil.NewImages` and `debug.NewFPS` have returned the two objects given. -/
structure Library where
  created : Nat → Images → FPS → Nat
  fpsDraw : Nat → FPS → SizeEvent → Option Nat
  fpsRelease : Nat → FPS → Option Nat
  imagesRelease : Nat → Option Images → Option Nat

/-- The call `fps.Draw(sz)`: it returns at once when the size is 0 by 0, panics
on a nil receiver otherwise, and is up to the library on a non-nil one. -/
def Library.draw (lib : Library) (h : Nat) (fps : Option FPS) (sz : SizeEvent) : Option Nat :=
  if sz.WidthPx = 0 ∧ sz.HeightPx = 0 then some h
  else
    match fps with
    | none => none
    | some f => lib.fpsDraw h f sz

/-- The call `fps.Release()`: it panics on a nil receiver and is up to the
library on a non-nil one. -/
def Library.release (lib : Library) (h : Nat) (fps : Option FPS) : Option Nat :=
  match fps with
  | none => none
  | some f => lib.fpsRelease h f

/-- All variables at their Go zero value. -/
def State.initial : State where
  images := none
  fps := none
  program := ⟨false, 0⟩
  position := ⟨0⟩
  offset := ⟨0⟩
  color := ⟨0⟩
  buf := ⟨0⟩
  green := F32.fin false 0
  touchX := F32.fin false 0
  touchY := F32.fin false 0
  glctx := none
  sz := ⟨0, 0⟩
  lib := 0

/-- Result of running a piece of the program: it returns in state `s` having
issued the calls `out`, or it panics after the calls `out`. -/
inductive Outcome where
  | next (s : State) (out : List Action)
  | crash (out : List Action)
deriving DecidableEq, Repr

/-- The calls issued. -/
def Outcome.out : Outcome → List Action
  | .next _ out => out
  | .crash out => out

/-- The state reached, if the program is still running. -/
def Outcome.state? : Outcome → Option State
  | .next s _ => some s
  | .crash _ => none

/-- Sequencing: continue with `k` from the state reached, after the calls
`pre`; a crash stops there. -/
def Outcome.andThen (pre : List Action) (o : Outcome) (k : State → Outcome) : Outcome :=
  match o with
  | .next s out =>
    match k s with
    | .next t out2 => .next t (pre ++ out ++ out2)
    | .crash out2 => .crash (pre ++ out ++ out2)
  | .crash out => .crash (pre ++ out)

/-! ## The program -/

/-- Constant `coordsPerVertex`. -/
def coordsPerVertex : Nat := 3

/-- Constant `vertexCount`. -/
def vertexCount : Nat := 4

/-- Constant `vertexShader`. -/
def vertexShader : String :=
  "#version 100\nuniform vec2 offset;\n\nattribute vec4 position;\nvoid main() \x7b\n\t// offset comes in with x/y values between 0 and 1.\n\t// position bounds are -1 to 1.\n\tvec4 offset4 = vec4(2.0*offset.x-1.0, 1.0-2.0*offset.y, 0, 0);\n\tgl_Position = position + offset4;\n\x7d"

/-- Constant `fragmentShader`. -/
def fragmentShader : String :=
  "#version 100\nprecision mediump float;\nuniform vec4 color;\nvoid main() \x7b\n\tgl_FragColor = color;\n\x7d"

/-- The twelve coordinates of `triangleData`, as float32 constants. -/
def triangleCoords : List F32 :=
  [F32.ofConst 0 1, F32.ofConst 4 10, F32.ofConst 0 1,
   F32.ofConst 4 10, F32.ofConst 4 10, F32.ofConst 0 1,
   F32.ofConst 0 1, F32.ofConst 0 1, F32.ofConst 0 1,
   F32.ofConst 4 10, F32.ofConst 0 1, F32.ofConst 0 1]

/-- Variable `triangleData`: `f32.Bytes(binary.LittleEndian, ...)`. -/
def triangleData : List Nat := triangleCoords.flatMap F32.bytesLE

/-- Function `onStart`. On a nil context the first method call made on it
(inside `glutil.CreateProgram`) panics; `glutil.NewImages` can panic too. -/
def onStart (lib : Library) (glctx : Option GLContext) (s : State) : Outcome :=
  match glctx with
  | none => .crash []
  | some c =>
    match c.createProgram with
    | (p, some err) =>
      .next { s with program := p }
        [.createProgram vertexShader fragmentShader, .log (.programError err)]
    | (p, none) =>
      match c.newImages with
      | none =>
        .crash
          [.createProgram vertexShader fragmentShader,
           .createBuffer,
           .bindBuffer .ARRAY_BUFFER c.createBuffer,
           .bufferData .ARRAY_BUFFER triangleData .STATIC_DRAW,
           .getAttribLocation p "position",
           .getUniformLocation p "color",
           .getUniformLocation p "offset",
           .newImages]
      | some im =>
        .next { s with
            program := p
            buf := c.createBuffer
            position := c.positionLocation
            color := c.colorLocation
            offset := c.offsetLocation
            images := some im
            fps := some c.newFPS
            lib := lib.created s.lib im c.newFPS }
          [.createProgram vertexShader fragmentShader,
           .createBuffer,
           .bindBuffer .ARRAY_BUFFER c.createBuffer,
           .bufferData .ARRAY_BUFFER triangleData .STATIC_DRAW,
           .getAttribLocation p "position",
           .getUniformLocation p "color",
           .getUniformLocation p "offset",
           .newImages,
           .newFPS (some im)]

/-- The update of `green` in `onPaint`: `green += 0.01; if green > 1 { green = 0 }`. -/
def tickGreen (green : F32) : F32 :=
  if (green.add (F32.ofConst 1 100)).gt (F32.ofConst 1 1) then F32.ofConst 0 1
  else green.add (F32.ofConst 1 100)

/-- The calls of `onPaint`, in the order of the source. -/
def paintCalls (sz : SizeEvent) (s : State) : List Action :=
  [.clearColor (F32.ofConst 1 1) (F32.ofConst 1 1) (F32.ofConst 1 1) (F32.ofConst 1 1),
   .clear .COLOR_BUFFER_BIT,
   .useProgram s.program,
   .uniform4f s.color (F32.ofConst 0 1) (tickGreen s.green) (F32.ofConst 0 1) (F32.ofConst 1 1),
   .uniform2f s.offset (s.touchX.div (F32.ofInt sz.WidthPx))
     (s.touchY.div (F32.ofInt sz.HeightPx)),
   .bindBuffer .ARRAY_BUFFER s.buf,
   .enableVertexAttribArray s.position,
   .vertexAttribPointer s.position coordsPerVertex .FLOAT false 0 0,
   .drawArrays .TRIANGLE_STRIP 0 vertexCount,
   .disableVertexAttribArray s.position,
   .fpsDraw s.fps sz]

/-- Function `onPaint`. On a nil context the first call, `glctx.ClearColor`,
panics; with a context all calls are issued, and the last one, `fps.Draw`,
returns or panics. -/
def onPaint (lib : Library) (glctx : Option GLContext) (sz : SizeEvent) (s : State) :
    Outcome :=
  match glctx with
  | none => .crash []
  | some _ =>
    match lib.draw s.lib s.fps sz with
    | some h => .next { s with green := tickGreen s.green, lib := h } (paintCalls sz s)
    | none => .crash (paintCalls sz s)

/-- Function `onStop`. On a nil context the first call, `glctx.DeleteProgram`,
panics; `fps.Release` and `images.Release` return or panic. -/
def onStop (lib : Library) (glctx : Option GLContext) (s : State) : Outcome :=
  match glctx with
  | none => .crash []
  | some _ =>
    match lib.release s.lib s.fps with
    | none => .crash [.deleteProgram s.program, .deleteBuffer s.buf, .fpsRelease s.fps]
    | some h =>
      match lib.imagesRelease h s.images with
      | none =>
        .crash [.deleteProgram s.program, .deleteBuffer s.buf, .fpsRelease s.fps,
          .imagesRelease s.images]
      | some h2 =>
        .next { s with lib := h2 }
          [.deleteProgram s.program, .deleteBuffer s.buf, .fpsRelease s.fps,
           .imagesRelease s.images]

/-- One iteration of the event loop of `main`: the type switch on one event. -/
def mainStep (lib : Library) (s : State) : Event → Outcome
  | .lifecycle e =>
    match e.Crosses with
    | .CrossOn =>
      Outcome.andThen [.log (.lifecycleEvent e), .log .crossOn]
        (onStart lib e.DrawContext { s with glctx := e.DrawContext })
        (fun t => .next t [.send ⟨false⟩])
    | .CrossOff =>
      Outcome.andThen [.log (.lifecycleEvent e), .log .crossOff]
        (onStop lib s.glctx s)
        (fun t => .next { t with glctx := none } [])
    | .CrossNone => .next s [.log (.lifecycleEvent e), .log .crossOther]
  | .size e =>
    .next { s with
        sz := e
        touchX := F32.ofInt (Int.tdiv e.WidthPx 2)
        touchY := F32.ofInt (Int.tdiv e.HeightPx 2) }
      [.log (.sizeEvent e)]
  | .paint e =>
    if s.glctx = none ∨ e.External = true then
      .next s [.log (.paintEvent e)]
    else
      Outcome.andThen [.log (.paintEvent e)]
        (onPaint lib s.glctx s.sz s)
        (fun t => .next t [.publish, .send ⟨false⟩])
  | .touch e =>
    .next { s with touchX := e.X, touchY := e.Y } [.log (.touchEvent e)]
  | .other => .next s [.log .unhandled]

/-- The event loop of `main`: the events are handled in delivery order, until
they end or the program panics. -/
def mainLoop (lib : Library) (s : State) : List Event → Outcome
  | [] => .next s []
  | e :: es => Outcome.andThen [] (mainStep lib s e) (fun t => mainLoop lib t es)

/-- Function `main` on the events the host delivers. -/
def main (lib : Library) (es : List Event) : Outcome :=
  Outcome.andThen [.log .startMain] (mainLoop lib State.initial es)
    (fun t => .next t [.log .exitMain])

/-! ## Notions used to state the properties -/

/-- The value of `green` after `n` paint ticks from 0. -/
def greenAfter (n : Nat) : F32 := Nat.iterate tickGreen n (F32.fin false 0)

/-- Whether `p` holds of `g` and of the next `n - 1` values of `green` after it. -/
def allAlong (p : F32 → Bool) : Nat → F32 → Bool
  | 0, _ => true
  | n + 1, g => p g && allAlong p n (tickGreen g)

/-- A non-negative finite value below 1, read off the representation. -/
def F32.belowOne : F32 → Bool
  | .fin false k => decide (k < 2 ^ 149)
  | _ => false

/-- A finite value in the half-open interval `[0, 1)`. -/
def F32.InUnitCo (x : F32) : Prop := ∃ q : ℚ, x.toRat = some q ∧ 0 ≤ q ∧ q < 1

/-- A finite value in the closed interval `[0, 1]`. -/
def F32.InUnit (x : F32) : Prop := ∃ q : ℚ, x.toRat = some q ∧ 0 ≤ q ∧ q ≤ 1

/-- The values of the type that are float32 numbers: a finite magnitude is
below `2^128` and a multiple of the grid spacing of its binade. -/
def F32.Valid : F32 → Prop
  | .fin _ k => k < F32.overflowMag ∧ 2 ^ F32.expOf k ∣ k
  | _ => True

/-- The exact quotient `n / den` of an integer, rounded to float32. -/
def F32.ofFrac (n : Int) (den : Nat) : F32 :=
  F32.ofMag (decide (n < 0)) (F32.roundMag (n.natAbs * 2 ^ 149) den)

/-- The arguments of the `Uniform2f` calls of a trace, in order. -/
def uniform2fCalls : List Action → List (Uniform × F32 × F32)
  | [] => []
  | .uniform2f dst x y :: rest => (dst, x, y) :: uniform2fCalls rest
  | _ :: rest => uniform2fCalls rest

/-- A size or a touch event. -/
def Event.isPointer : Event → Bool
  | .size _ => true
  | .touch _ => true
  | _ => false

/-- A size event. -/
def Event.isSize : Event → Bool
  | .size _ => true
  | _ => false

/-- A lifecycle event that crosses `StageVisible` on. -/
def Event.isCrossOn : Event → Bool
  | .lifecycle e => decide (e.Crosses = .CrossOn)
  | _ => false

/-- The most recent size event of a history; `d` if there is none. -/
def sizeAfter (d : SizeEvent) (es : List Event) : SizeEvent :=
  match es.reverse.find? Event.isSize with
  | some (.size e) => e
  | _ => d

/-- The pointer position a history leaves: the coordinates of the most recent
touch event if it came after the most recent size event, the whole-pixel centre
`(WidthPx / 2, HeightPx / 2)` (integer division) of the most recent size event
otherwise, and `d` when there has been neither. -/
def pointerAfter (d : F32 × F32) (es : List Event) : F32 × F32 :=
  match es.reverse.find? Event.isPointer with
  | some (.touch e) => (e.X, e.Y)
  | some (.size e) => (F32.ofInt (Int.tdiv e.WidthPx 2), F32.ofInt (Int.tdiv e.HeightPx 2))
  | _ => d

/-- The most recent size event since the start of the program (the zero value
of `sz` if there is none). -/
def lastSize (es : List Event) : SizeEvent := sizeAfter ⟨0, 0⟩ es

/-- The pointer position since the start of the program (`(0, 0)` before the
first size or touch event). -/
def lastPointer (es : List Event) : F32 × F32 :=
  pointerAfter (F32.fin false 0, F32.fin false 0) es

/-- The pointer position with the exact midpoint `(WidthPx / 2, HeightPx / 2)`
of the most recent size event in place of the whole-pixel centre. -/
def midpointPointer (es : List Event) : F32 × F32 :=
  match es.reverse.find? Event.isPointer with
  | some (.touch e) => (e.X, e.Y)
  | some (.size e) => (F32.ofFrac e.WidthPx 2, F32.ofFrac e.HeightPx 2)
  | _ => (F32.fin false 0, F32.fin false 0)

/-- A context on which program creation succeeds. -/
def workingContext : GLContext where
  createProgram := (⟨true, 1⟩, none)
  createBuffer := ⟨1⟩
  positionLocation := ⟨0⟩
  colorLocation := ⟨0⟩
  offsetLocation := ⟨1⟩
  newImages := some ⟨1⟩
  newFPS := ⟨1⟩

/-- A context on which program creation fails. -/
def failingContext : GLContext where
  createProgram := (⟨false, 0⟩, some "link error")
  createBuffer := ⟨1⟩
  positionLocation := ⟨0⟩
  colorLocation := ⟨0⟩
  offsetLocation := ⟨1⟩
  newImages := some ⟨1⟩
  newFPS := ⟨1⟩

/-- A context on which program creation succeeds and `glutil.NewImages`
panics. -/
def imagelessContext : GLContext where
  createProgram := (⟨true, 1⟩, none)
  createBuffer := ⟨1⟩
  positionLocation := ⟨0⟩
  colorLocation := ⟨0⟩
  offsetLocation := ⟨1⟩
  newImages := none
  newFPS := ⟨1⟩

/-- A library whose objects remember the FPS released last (as its id plus 1):
`Draw` panics on that FPS until it is created anew, `Release` on a nil
`*glutil.Images` panics, and every other call returns. -/
def Library.tracking : Library where
  created := fun h _ f => if h = f.id + 1 then 0 else h
  fpsDraw := fun h f _ => if h = f.id + 1 then none else some h
  fpsRelease := fun _ f => some (f.id + 1)
  imagesRelease := fun h im =>
    match im with
    | none => none
    | some _ => some h

/-- A history: become visible, resize, draw, touch, draw. -/
def sampleEvents : List Event :=
  [.lifecycle ⟨.CrossOn, some workingContext⟩, .size ⟨1080, 1920⟩, .paint ⟨false⟩,
   .touch ⟨F32.ofConst 270 1, F32.ofConst 480 1⟩, .paint ⟨false⟩]

/-- The state `sampleEvents` leads to. -/
def sampleState : State where
  images := some ⟨1⟩
  fps := some ⟨1⟩
  program := ⟨true, 1⟩
  position := ⟨0⟩
  offset := ⟨1⟩
  color := ⟨0⟩
  buf := ⟨1⟩
  green := greenAfter 2
  touchX := F32.ofConst 270 1
  touchY := F32.ofConst 480 1
  glctx := some workingContext
  sz := ⟨1080, 1920⟩
  lib := 0

/-- The history of a failed start: become visible on a context on which program
creation fails, then resize. -/
def failedStartEvents : List Event :=
  [.lifecycle ⟨.CrossOn, some failingContext⟩, .size ⟨1080, 1920⟩]

/-- The state `failedStartEvents` leads to: the context is stored, `fps` and
`images` are still nil. -/
def failedStartState : State where
  images := none
  fps := none
  program := ⟨false, 0⟩
  position := ⟨0⟩
  offset := ⟨0⟩
  color := ⟨0⟩
  buf := ⟨0⟩
  green := F32.fin false 0
  touchX := F32.ofInt 540
  touchY := F32.ofInt 960
  glctx := some failingContext
  sz := ⟨1080, 1920⟩
  lib := 0

/-! # Properties -/

/-! ## The loop: general facts -/

theorem Outcome.andThen_next (pre : List Action) (s : State) (out : List Action)
    (k : State → Outcome) :
    Outcome.andThen pre (.next s out) k =
      match k s with
      | .next t out2 => .next t (pre ++ out ++ out2)
      | .crash out2 => .crash (pre ++ out ++ out2) := rfl

theorem Outcome.andThen_crash (pre : List Action) (out : List Action) (k : State → Outcome) :
    Outcome.andThen pre (.crash out) k = .crash (pre ++ out) := rfl

/-- An invariant of the steps over the events of a class, together with a
property of the calls they issue, holds along the whole loop. -/
theorem mainLoop_invariant (lib : Library) (E : Event → Prop) (P : State → Prop)
    (Q : Action → Prop)
    (hstep : ∀ s e, E e → P s →
      (∀ a ∈ (mainStep lib s e).out, Q a) ∧ ∀ t, (mainStep lib s e).state? = some t → P t) :
    ∀ (es : List Event) (s : State), (∀ e ∈ es, E e) → P s →
      (∀ a ∈ (mainLoop lib s es).out, Q a) ∧
      ∀ t, (mainLoop lib s es).state? = some t → P t := by
  intro es
  induction es with
  | nil =>
    intro s _ hs
    refine ⟨?_, ?_⟩
    · intro a ha
      simp [mainLoop, Outcome.out] at ha
    · intro t ht
      simp only [mainLoop, Outcome.state?, Option.some.injEq] at ht
      exact ht ▸ hs
  | cons e es ih =>
    intro s hE hs
    have hE1 : E e := hE e (List.mem_cons_self _ _)
    have hE2 : ∀ x ∈ es, E x := fun x hx => hE x (List.mem_cons_of_mem _ hx)
    obtain ⟨h1, h2⟩ := hstep s e hE1 hs
    unfold mainLoop
    cases hm : mainStep lib s e with
    | crash out =>
      rw [hm] at h1
      refine ⟨?_, ?_⟩
      · intro a ha
        simp only [Outcome.andThen, Outcome.out, List.nil_append] at ha
        exact h1 a ha
      · intro t ht
        simp [Outcome.andThen, Outcome.state?] at ht
    | next s1 out =>
      rw [hm] at h1 h2
      have hs1 : P s1 := h2 s1 rfl
      obtain ⟨h3, h4⟩ := ih s1 hE2 hs1
      rw [Outcome.andThen_next]
      cases hl : mainLoop lib s1 es with
      | crash out2 =>
        rw [hl] at h3
        refine ⟨?_, ?_⟩
        · intro a ha
          simp only [Outcome.out, List.nil_append, List.mem_append] at ha
          rcases ha with ha | ha
          · exact h1 a ha
          · exact h3 a ha
        · intro t ht
          simp [Outcome.state?] at ht
      | next s2 out2 =>
        rw [hl] at h3 h4
        refine ⟨?_, ?_⟩
        · intro a ha
          simp only [Outcome.out, List.nil_append, List.mem_append] at ha
          rcases ha with ha | ha
          · exact h1 a ha
          · exact h3 a ha
        · intro t ht
          simp only [Outcome.state?, Option.some.injEq] at ht
          exact h4 t (by simp [Outcome.state?, ht])

/-- The calls of `onPaint` do not depend on what `fps.Draw` does. -/
theorem onPaint_out (lib : Library) (c : GLContext) (sz : SizeEvent) (s : State) :
    (onPaint lib (some c) sz s).out = paintCalls sz s := by
  unfold onPaint
  cases lib.draw s.lib s.fps sz <;> rfl

/-- A call of `onPaint` that returns has changed `green` and the state of the
library objects, and nothing else. -/
theorem onPaint_state (lib : Library) (c : GLContext) (sz : SizeEvent) (s t : State)
    (h : (onPaint lib (some c) sz s).state? = some t) :
    ∃ l, lib.draw s.lib s.fps sz = some l ∧
      t = { s with green := tickGreen s.green, lib := l } := by
  unfold onPaint at h
  cases hd : lib.draw s.lib s.fps sz with
  | none => rw [hd] at h; simp [Outcome.state?] at h
  | some l =>
    rw [hd] at h
    simp only [Outcome.state?, Option.some.injEq] at h
    exact ⟨l, rfl, h.symm⟩

/-- What handling a paint event comes to, case by case. -/
theorem mainStep_paint (lib : Library) (s : State) (e : PaintEvent) :
    (s.glctx = none ∨ e.External = true →
      mainStep lib s (.paint e) = .next s [.log (.paintEvent e)]) ∧
    (∀ c, s.glctx = some c → e.External = false →
      (∀ l, lib.draw s.lib s.fps s.sz = some l →
        mainStep lib s (.paint e) =
          .next { s with green := tickGreen s.green, lib := l }
            ([.log (.paintEvent e)] ++ paintCalls s.sz s ++ [.publish, .send ⟨false⟩])) ∧
      (lib.draw s.lib s.fps s.sz = none →
        mainStep lib s (.paint e) = .crash ([.log (.paintEvent e)] ++ paintCalls s.sz s))) := by
  refine ⟨?_, ?_⟩
  · intro h
    simp only [mainStep, if_pos h]
  · intro c hc hx
    refine ⟨?_, ?_⟩
    · intro l hl
      simp [mainStep, hc, hx, onPaint, hl, Outcome.andThen]
    · intro hl
      simp [mainStep, hc, hx, onPaint, hl, Outcome.andThen]

/-- What handling a teardown comes to, case by case. -/
theorem onStop_cases (lib : Library) (c : GLContext) (s : State) :
    (lib.release s.lib s.fps = none →
      onStop lib (some c) s =
        .crash [.deleteProgram s.program, .deleteBuffer s.buf, .fpsRelease s.fps]) ∧
    (∀ h, lib.release s.lib s.fps = some h → lib.imagesRelease h s.images = none →
      onStop lib (some c) s =
        .crash [.deleteProgram s.program, .deleteBuffer s.buf, .fpsRelease s.fps,
          .imagesRelease s.images]) ∧
    (∀ h h2, lib.release s.lib s.fps = some h → lib.imagesRelease h s.images = some h2 →
      onStop lib (some c) s =
        .next { s with lib := h2 }
          [.deleteProgram s.program, .deleteBuffer s.buf, .fpsRelease s.fps,
           .imagesRelease s.images]) := by
  refine ⟨?_, ?_, ?_⟩
  · intro h1
    simp only [onStop, h1]
  · intro h h1 h2
    simp only [onStop, h1, h2]
  · intro h h2 h1 h3
    simp only [onStop, h1, h3]

/-- A call of `onStop` that returns has changed the state of the library
objects and nothing else. -/
theorem onStop_state (lib : Library) (g : Option GLContext) (s t : State) (out : List Action)
    (h : onStop lib g s = .next t out) : ∃ l, t = { s with lib := l } := by
  unfold onStop at h
  cases g with
  | none => simp at h
  | some c =>
    simp only at h
    cases h1 : lib.release s.lib s.fps with
    | none => rw [h1] at h; simp at h
    | some l1 =>
      rw [h1] at h
      simp only at h
      cases h2 : lib.imagesRelease l1 s.images with
      | none => rw [h2] at h; simp at h
      | some l2 =>
        rw [h2] at h
        simp only [Outcome.next.injEq] at h
        exact ⟨l2, h.1.symm⟩

/-- A call of `onStart` that returns has left `green`, the pointer position,
`sz` and the context as they were. -/
theorem onStart_state (lib : Library) (g : Option GLContext) (s t : State)
    (out : List Action) (h : onStart lib g s = .next t out) :
    t.green = s.green ∧ t.touchX = s.touchX ∧ t.touchY = s.touchY ∧ t.sz = s.sz ∧
    t.glctx = s.glctx := by
  unfold onStart at h
  cases g with
  | none => simp at h
  | some c =>
    simp only at h
    rcases hc : c.createProgram with ⟨p, _ | err⟩
    · rw [hc] at h
      simp only at h
      cases hi : c.newImages with
      | none => rw [hi] at h; simp at h
      | some im =>
        rw [hi] at h
        simp only [Outcome.next.injEq] at h
        obtain ⟨h1, h2⟩ := h
        subst h1 h2
        simp
    · rw [hc] at h
      simp only [Outcome.next.injEq] at h
      obtain ⟨h1, h2⟩ := h
      subst h1 h2
      simp

/-! ## The green channel -/

theorem greenAfter_succ (n : Nat) : greenAfter (n + 1) = tickGreen (greenAfter n) := by
  unfold greenAfter
  exact Function.iterate_succ_apply' tickGreen n _

theorem greenAfter_cycle : greenAfter 101 = F32.fin false 0 := by decide!

theorem allAlong_spec (p : F32 → Bool) :
    ∀ (n : Nat) (g : F32), allAlong p n g = true →
      ∀ i, i < n → p (Nat.iterate tickGreen i g) = true := by
  intro n
  induction n with
  | zero => intro g _ i hi; omega
  | succ n ih =>
    intro g h i hi
    simp only [allAlong, Bool.and_eq_true] at h
    cases i with
    | zero => simpa using h.1
    | succ i =>
      rw [Function.iterate_succ_apply]
      exact ih (tickGreen g) h.2 i (by omega)

theorem greenAfter_add_cycle (n : Nat) : greenAfter (n + 101) = greenAfter n := by
  unfold greenAfter
  rw [Function.iterate_add_apply]
  have h := greenAfter_cycle
  unfold greenAfter at h
  rw [h]

theorem greenAfter_mod (n : Nat) : greenAfter n = greenAfter (n % 101) := by
  induction n using Nat.strong_induction_on with
  | _ n ih =>
    by_cases h : n < 101
    · rw [Nat.mod_eq_of_lt h]
    · have h1 : n = (n - 101) + 101 := by omega
      rw [h1, greenAfter_add_cycle, Nat.add_mod_right]
      exact ih (n - 101) (by omega)

theorem allAlong_belowOne : allAlong F32.belowOne 101 (F32.fin false 0) = true := by decide!

theorem greenAfter_belowOne (n : Nat) : (greenAfter n).belowOne = true := by
  rw [greenAfter_mod]
  exact allAlong_spec _ 101 _ allAlong_belowOne (n % 101) (Nat.mod_lt _ (by decide))

theorem F32.inUnitCo_of_belowOne (x : F32) (h : x.belowOne = true) : x.InUnitCo := by
  match x, h with
  | .fin false k, h =>
    simp only [F32.belowOne, decide_eq_true_eq] at h
    refine ⟨(k : ℚ) / 2 ^ 149, rfl, by positivity, ?_⟩
    rw [div_lt_one (by positivity)]
    exact_mod_cast h

theorem F32.one_eq : F32.one = F32.fin false (2 ^ 149) := by decide!

theorem F32.zero_eq : F32.zero = F32.fin false 0 := by decide!

theorem F32.ne_one_of_belowOne (x : F32) (h : x.belowOne = true) : x ≠ F32.one := by
  match x, h with
  | .fin false k, h =>
    simp only [F32.belowOne, decide_eq_true_eq] at h
    rw [F32.one_eq]
    intro hk
    injection hk with _ hk
    omega

theorem mainStep_green (lib : Library) (s : State) (e : Event) :
    (∀ dst r g b a, Action.uniform4f dst r g b a ∈ (mainStep lib s e).out →
      g = tickGreen s.green) ∧
    ∀ t, (mainStep lib s e).state? = some t →
      t.green = s.green ∨ t.green = tickGreen s.green := by
  cases e with
  | lifecycle e =>
    rcases e with ⟨cr, dc⟩
    cases cr with
    | CrossNone => simp [mainStep, Outcome.out, Outcome.state?]
    | CrossOn =>
      cases dc with
      | none => simp [mainStep, onStart, Outcome.andThen, Outcome.out, Outcome.state?]
      | some c =>
        rcases hc : c.createProgram with ⟨p, _ | err⟩
        · cases hi : c.newImages <;>
            simp [mainStep, onStart, hc, hi, Outcome.andThen, Outcome.out, Outcome.state?]
        · simp [mainStep, onStart, hc, Outcome.andThen, Outcome.out, Outcome.state?]
    | CrossOff =>
      cases hg : s.glctx with
      | none => simp [mainStep, onStop, hg, Outcome.andThen, Outcome.out, Outcome.state?]
      | some c =>
        cases h1 : lib.release s.lib s.fps with
        | none => simp [mainStep, onStop, hg, h1, Outcome.andThen, Outcome.out, Outcome.state?]
        | some l1 =>
          cases h2 : lib.imagesRelease l1 s.images <;>
            simp [mainStep, onStop, hg, h1, h2, Outcome.andThen, Outcome.out, Outcome.state?]
  | size e => simp [mainStep, Outcome.out, Outcome.state?]
  | paint e =>
    cases hg : s.glctx with
    | none => simp [mainStep, hg, Outcome.out, Outcome.state?]
    | some c =>
      cases hx : e.External with
      | true => simp [mainStep, hg, hx, Outcome.out, Outcome.state?]
      | false =>
        cases hd : lib.draw s.lib s.fps s.sz with
        | none =>
          simp only [mainStep, onPaint, hg, hx, hd, Outcome.andThen, Outcome.out,
            Outcome.state?, paintCalls]
          refine ⟨?_, ?_⟩
          · intro dst r g b a ha
            simp at ha
            exact ha.2.2.1
          · intro t ht
            simp at ht
        | some l =>
          simp only [mainStep, onPaint, hg, hx, hd, Outcome.andThen, Outcome.out,
            Outcome.state?, paintCalls]
          refine ⟨?_, ?_⟩
          · intro dst r g b a ha
            simp at ha
            exact ha.2.2.1
          · intro t ht
            simp at ht
            right
            rw [← ht]
  | touch e => simp [mainStep, Outcome.out, Outcome.state?]
  | other => simp [mainStep, Outcome.out, Outcome.state?]

/-- Every value `green` takes, and every value passed as the green component,
is one of the values `greenAfter n`. -/
theorem mainLoop_green_orbit (lib : Library) (es : List Event) :
    (∀ a ∈ (mainLoop lib State.initial es).out,
      ∀ dst r g b al, a = Action.uniform4f dst r g b al → ∃ n, g = greenAfter n) ∧
    ∀ t, (mainLoop lib State.initial es).state? = some t → ∃ n, t.green = greenAfter n := by
  refine mainLoop_invariant lib (fun _ => True) (fun s => ∃ n, s.green = greenAfter n)
    (fun a => ∀ dst r g b al, a = Action.uniform4f dst r g b al → ∃ n, g = greenAfter n)
    ?_ es State.initial (fun _ _ => trivial) ⟨0, rfl⟩
  intro s e _ hs
  obtain ⟨n, hn⟩ := hs
  obtain ⟨h1, h2⟩ := mainStep_green lib s e
  refine ⟨?_, ?_⟩
  · intro a ha dst r g b al hEq
    refine ⟨n + 1, ?_⟩
    rw [greenAfter_succ, ← hn]
    exact h1 dst r g b al (hEq ▸ ha)
  · intro t ht
    rcases h2 t ht with h | h
    · exact ⟨n, h.trans hn⟩
    · exact ⟨n + 1, by rw [greenAfter_succ, ← hn]; exact h⟩

/-- C1. Green-channel range invariant: whatever the library does, in the state
the event loop reaches from the initial state after any finite sequence of
events, hence after every paint tick, `green` is a finite float32 with
`0 ≤ green < 1`, in particular different from 1; the same holds of every green
component passed to `Uniform4f`, also on a run that ends in a panic. -/
theorem green_range_invariant (lib : Library) (es : List Event) (s : State)
    (h : (mainLoop lib State.initial es).state? = some s) :
    (s.green.InUnitCo ∧ s.green ≠ F32.one) ∧
    ∀ dst r g b al,
      Action.uniform4f dst r g b al ∈ (mainLoop lib State.initial es).out → g.InUnitCo := by
  obtain ⟨h1, h2⟩ := mainLoop_green_orbit lib es
  refine ⟨?_, ?_⟩
  · obtain ⟨n, hn⟩ := h2 s h
    rw [hn]
    exact ⟨F32.inUnitCo_of_belowOne _ (greenAfter_belowOne n),
      F32.ne_one_of_belowOne _ (greenAfter_belowOne n)⟩
  · intro dst r g b al ha
    obtain ⟨n, hn⟩ := h1 _ ha dst r g b al rfl
    rw [hn]
    exact F32.inUnitCo_of_belowOne _ (greenAfter_belowOne n)

/-- The range invariant on the history `sampleEvents`, which ends in `sampleState`. -/
theorem green_range_invariant_witness :
    (mainLoop Library.tracking State.initial sampleEvents).state? = some sampleState ∧
    (sampleState.green.InUnitCo ∧ sampleState.green ≠ F32.one) ∧
    ∀ dst r g b al,
      Action.uniform4f dst r g b al ∈
        (mainLoop Library.tracking State.initial sampleEvents).out →
      g.InUnitCo :=
  ⟨by decide!, green_range_invariant Library.tracking sampleEvents sampleState (by decide!)⟩

/-! ## float32: values that are represented exactly -/

theorem F32.expAux_lower (fuel : Nat) :
    ∀ n : Nat, expAux fuel n = 0 ∨ 2 ^ (expAux fuel n + 23) ≤ n := by
  induction fuel with
  | zero => intro n; left; rfl
  | succ fuel ih =>
    intro n
    unfold expAux
    by_cases h : n < 2 ^ 24
    · left; rw [if_pos h]
    · right
      rw [if_neg h]
      rcases ih (n / 2) with h0 | h1
      · rw [h0]
        exact Nat.le_of_not_lt h
      · have h2 : 2 ^ (expAux fuel (n / 2) + 23) * 2 ≤ n :=
          (Nat.le_div_iff_mul_le (by decide)).mp h1
        calc 2 ^ (expAux fuel (n / 2) + 1 + 23)
            = 2 ^ (expAux fuel (n / 2) + 23) * 2 := by
              rw [show expAux fuel (n / 2) + 1 + 23 = (expAux fuel (n / 2) + 23) + 1 by omega,
                pow_succ]
          _ ≤ n := h2

theorem F32.expOf_lower (n : Nat) : expOf n = 0 ∨ 2 ^ (expOf n + 23) ≤ n :=
  F32.expAux_lower n n

theorem F32.roundMag_of_dvd (p : Nat) (h : 2 ^ expOf p ∣ p) : roundMag p 1 = p := by
  unfold roundMag
  simp only [Nat.div_one, one_mul]
  rw [Nat.mod_eq_zero_of_dvd h, Nat.mul_zero, if_pos (by positivity)]
  exact Nat.div_mul_cancel h

/-- A magnitude with at most 24 significant bits is its own rounding. -/
theorem F32.roundMag_exact (m t : Nat) (hm : m < 2 ^ 24) :
    roundMag (m * 2 ^ t) 1 = m * 2 ^ t := by
  apply F32.roundMag_of_dvd
  rcases F32.expOf_lower (m * 2 ^ t) with h0 | h1
  · rw [h0]; simp
  · have h2 : m * 2 ^ t < 2 ^ (24 + t) := by
      rw [pow_add]
      exact Nat.mul_lt_mul_of_pos_right hm (by positivity)
    have h3 : expOf (m * 2 ^ t) + 23 < 24 + t :=
      (Nat.pow_lt_pow_iff_right (by decide)).mp (lt_of_le_of_lt h1 h2)
    exact Dvd.dvd.mul_left (pow_dvd_pow 2 (by omega)) m

/-- Rounding sees only the value of the quotient. -/
theorem F32.roundMag_mul_right (c q : Nat) (hq : 0 < q) :
    roundMag (c * q) q = roundMag c 1 := by
  unfold roundMag
  simp only [Nat.div_one, one_mul]
  rw [Nat.mul_div_cancel c hq]
  have h1 : c * q / (q * 2 ^ expOf c) = c / 2 ^ expOf c := by
    rw [Nat.mul_comm c q]
    exact Nat.mul_div_mul_left _ _ hq
  have h2 : c * q % (q * 2 ^ expOf c) = q * (c % 2 ^ expOf c) := by
    rw [Nat.mul_comm c q]
    exact Nat.mul_mod_mul_left _ _ _
  rw [h1, h2, Nat.mul_left_comm 2 q]
  simp only [Nat.mul_lt_mul_left hq]

theorem F32.ofMag_of_lt (a : Bool) (k : Nat) (h : k < overflowMag) :
    ofMag a k = fin a k := by
  unfold ofMag
  rw [if_pos h]

/-- Conversion of an integer of magnitude at most `2^24` is exact. -/
theorem F32.ofInt_exact (n : Int) (h : n.natAbs ≤ 2 ^ 24) :
    ofInt n = fin (decide (n < 0)) (n.natAbs * 2 ^ 149) := by
  unfold ofInt
  have hr : roundMag (n.natAbs * 2 ^ 149) 1 = n.natAbs * 2 ^ 149 := by
    rcases Nat.lt_or_eq_of_le h with h1 | h1
    · exact F32.roundMag_exact _ _ h1
    · rw [h1, show (2 : Nat) ^ 24 * 2 ^ 149 = 1 * 2 ^ 173 by norm_num]
      exact F32.roundMag_exact 1 173 (by decide)
  rw [hr]
  apply F32.ofMag_of_lt
  have h2 : n.natAbs * 2 ^ 149 ≤ 2 ^ 24 * 2 ^ 149 := Nat.mul_le_mul_right _ h
  have h3 : (2 : Nat) ^ 24 * 2 ^ 149 < overflowMag := by decide
  omega

/-- Conversion of an even integer of magnitude at most `2^25` is exact. -/
theorem F32.ofInt_exact_double (k : Int) (h : k.natAbs ≤ 2 ^ 24) :
    ofInt (2 * k) = fin (decide (k < 0)) (2 * k.natAbs * 2 ^ 149) := by
  unfold ofInt
  have hs : decide (2 * k < 0) = decide (k < 0) := by
    congr 1
    apply propext
    constructor <;> intro h <;> omega
  have ha : (2 * k).natAbs = 2 * k.natAbs := by
    rw [Int.natAbs_mul]; rfl
  have he : 2 * k.natAbs * 2 ^ 149 = k.natAbs * 2 ^ 150 := by
    rw [show (2 : Nat) ^ 150 = 2 * 2 ^ 149 by norm_num]
    ring
  have hr : roundMag (k.natAbs * 2 ^ 150) 1 = k.natAbs * 2 ^ 150 := by
    rcases Nat.lt_or_eq_of_le h with h1 | h1
    · exact F32.roundMag_exact _ _ h1
    · rw [h1, show (2 : Nat) ^ 24 * 2 ^ 150 = 1 * 2 ^ 174 by norm_num]
      exact F32.roundMag_exact 1 174 (by decide)
  rw [hs, ha, he, hr]
  apply F32.ofMag_of_lt
  have h2 : k.natAbs * 2 ^ 150 ≤ 2 ^ 24 * 2 ^ 150 := Nat.mul_le_mul_right _ h
  have h3 : (2 : Nat) ^ 24 * 2 ^ 150 < overflowMag := by decide
  omega

theorem F32.toRat_fin_int (n : Int) :
    (fin (decide (n < 0)) (n.natAbs * 2 ^ 149)).toRat = some (n : ℚ) := by
  have hp : ((2 : ℚ) ^ 149) ≠ 0 := by positivity
  have hc : ((n.natAbs : ℕ) : ℚ) = (((n.natAbs : ℕ) : ℤ) : ℚ) := (Int.cast_natCast _).symm
  by_cases hn : n < 0
  · rw [decide_eq_true hn]
    show some (-(((n.natAbs * 2 ^ 149 : ℕ) : ℚ) / 2 ^ 149)) = some (n : ℚ)
    rw [Nat.cast_mul, Nat.cast_pow, Nat.cast_ofNat, mul_div_assoc, div_self hp, mul_one, hc,
      show ((n.natAbs : ℕ) : ℤ) = -n by omega, Int.cast_neg, neg_neg]
  · rw [decide_eq_false hn]
    show some (((n.natAbs * 2 ^ 149 : ℕ) : ℚ) / 2 ^ 149) = some (n : ℚ)
    rw [Nat.cast_mul, Nat.cast_pow, Nat.cast_ofNat, mul_div_assoc, div_self hp, mul_one, hc,
      show ((n.natAbs : ℕ) : ℤ) = n by omega]

theorem F32.div_fin_fin (a b : Bool) (x y : Nat) :
    div (fin a x) (fin b y) =
      if y = 0 then (if x = 0 then nan else inf (xor a b))
      else ofMag (xor a b) (roundMag (x * 2 ^ 149) y) := rfl

/-- The quotient of a value by its double is one half. -/
theorem F32.div_double (a : Bool) (k : Nat) (hk : 0 < k) :
    div (fin a (k * 2 ^ 149)) (fin a (2 * k * 2 ^ 149)) = fin false (2 ^ 148) := by
  have hq : 0 < 2 * k * 2 ^ 149 := by positivity
  have hp : k * 2 ^ 149 * 2 ^ 149 = 2 ^ 148 * (2 * k * 2 ^ 149) := by
    rw [show (2 : Nat) ^ 149 = 2 ^ 148 * 2 by norm_num]
    ring
  have h1 : roundMag (2 ^ 148) 1 = 2 ^ 148 := by
    have h := F32.roundMag_exact 1 148 (by decide)
    rwa [one_mul] at h
  rw [F32.div_fin_fin, if_neg (Nat.pos_iff_ne_zero.mp hq), hp, F32.roundMag_mul_right _ _ hq, h1, Bool.xor_self]
  exact F32.ofMag_of_lt _ _ (by decide)

theorem F32.toRat_half : (fin false (2 ^ 148)).toRat = some (1 / 2) := by
  show some ((((2 : ℕ) ^ 148 : ℕ) : ℚ) / 2 ^ 149) = some (1 / 2)
  rw [Nat.cast_pow, Nat.cast_ofNat, show (2 : ℚ) ^ 149 = 2 ^ 148 * 2 by norm_num,
    div_mul_eq_div_div, div_self (by positivity)]

/-- What a size event stores for one dimension `w`: the exact value of the
integer quotient, which for an even `w` is `w / 2`, and then half of `w`. -/
theorem F32.ofInt_half (w : Int) (hw : w.natAbs ≤ 2 ^ 25) :
    (ofInt (Int.tdiv w 2)).toRat = some ((Int.tdiv w 2 : Int) : ℚ) ∧
    (2 ∣ w → (ofInt (Int.tdiv w 2)).toRat = some ((w : ℚ) / 2) ∧
      (w ≠ 0 → ((ofInt (Int.tdiv w 2)).div (ofInt w)).toRat = some (1 / 2))) := by
  have hb : (Int.tdiv w 2).natAbs ≤ 2 ^ 24 := by
    have h1 : (Int.tdiv w 2).natAbs = w.natAbs / 2 := by
      rw [Int.natAbs_tdiv]; rfl
    omega
  have he := F32.ofInt_exact _ hb
  refine ⟨by rw [he]; exact F32.toRat_fin_int _, ?_⟩
  intro hd
  obtain ⟨k, rfl⟩ := hd
  have hk : Int.tdiv (2 * k) 2 = k := Int.mul_tdiv_cancel_left k (by decide)
  rw [hk] at he hb ⊢
  refine ⟨?_, ?_⟩
  · rw [he, F32.toRat_fin_int]
    congr 1
    push_cast
    ring
  · intro hne
    have hk0 : 0 < k.natAbs := Int.natAbs_pos.mpr (by omega)
    rw [he, F32.ofInt_exact_double k hb, F32.div_double _ _ hk0]
    exact F32.toRat_half

/-! ## float32: rounding is monotone at the values of the grid -/

theorem F32.expAux_upper (fuel : Nat) :
    ∀ n : Nat, n < 2 ^ (24 + fuel) → n < 2 ^ (24 + expAux fuel n) := by
  induction fuel with
  | zero => intro n h; exact h
  | succ fuel ih =>
    intro n h
    unfold expAux
    by_cases h24 : n < 2 ^ 24
    · rw [if_pos h24]; exact h24
    · rw [if_neg h24]
      have h1 : n / 2 < 2 ^ (24 + fuel) := by
        rw [Nat.div_lt_iff_lt_mul (by decide)]
        calc n < 2 ^ (24 + (fuel + 1)) := h
          _ = 2 ^ (24 + fuel) * 2 := by rw [← Nat.add_assoc, pow_succ]
      have h2 := ih (n / 2) h1
      have h3 : n < 2 ^ (24 + expAux fuel (n / 2)) * 2 :=
        (Nat.div_lt_iff_lt_mul (by decide)).mp h2
      calc n < 2 ^ (24 + expAux fuel (n / 2)) * 2 := h3
        _ = 2 ^ (24 + (expAux fuel (n / 2) + 1)) := by rw [← Nat.add_assoc, pow_succ]

theorem F32.expOf_upper (n : Nat) : n < 2 ^ (24 + expOf n) := by
  apply F32.expAux_upper
  calc n < 2 ^ n := Nat.lt_two_pow n
    _ ≤ 2 ^ (24 + n) := Nat.pow_le_pow_right (by decide) (by omega)

/-- The rounding of `p / q` is at least the grid value just below it. -/
theorem F32.floor_le_roundMag (p q : Nat) :
    p / (q * 2 ^ expOf (p / q)) * 2 ^ expOf (p / q) ≤ roundMag p q := by
  unfold roundMag
  apply Nat.mul_le_mul_right
  split
  · exact Nat.le_refl _
  · split
    · exact Nat.le_succ _
    · exact Nat.le_add_right _ _

/-- The rounding of `p / q` is at most the grid value just above it. -/
theorem F32.roundMag_le_ceil (p q : Nat) :
    roundMag p q ≤ (p / (q * 2 ^ expOf (p / q)) + 1) * 2 ^ expOf (p / q) := by
  unfold roundMag
  apply Nat.mul_le_mul_right
  split
  · exact Nat.le_succ _
  · split
    · exact Nat.le_refl _
    · have := Nat.mod_lt (p / (q * 2 ^ expOf (p / q))) (by decide : 0 < 2)
      omega

/-- A grid value below the exact magnitude stays below its rounding. -/
theorem F32.le_roundMag (k p : Nat) (hk : 2 ^ expOf k ∣ k) (hle : k ≤ p) :
    k ≤ roundMag p 1 := by
  refine le_trans ?_ (F32.floor_le_roundMag p 1)
  simp only [Nat.div_one, one_mul]
  rcases F32.expOf_lower p with h0 | h1
  · rw [h0]; simpa using hle
  · by_cases hs : k < 2 ^ (expOf p + 23)
    · have h2 : 2 ^ 23 ≤ p / 2 ^ expOf p := by
        rw [Nat.le_div_iff_mul_le (by positivity), ← pow_add, Nat.add_comm]
        exact h1
      calc k ≤ 2 ^ (expOf p + 23) := Nat.le_of_lt hs
        _ = 2 ^ 23 * 2 ^ expOf p := by rw [Nat.add_comm, pow_add]
        _ ≤ p / 2 ^ expOf p * 2 ^ expOf p := Nat.mul_le_mul_right _ h2
    · have h3 : 2 ^ (expOf p + 23) < 2 ^ (24 + expOf k) :=
        lt_of_le_of_lt (Nat.le_of_not_lt hs) (F32.expOf_upper k)
      have h4 : expOf p + 23 < 24 + expOf k := (Nat.pow_lt_pow_iff_right (by decide)).mp h3
      have h5 : 2 ^ expOf p ∣ k := dvd_trans (pow_dvd_pow 2 (by omega)) hk
      obtain ⟨c, hc⟩ := h5
      rw [hc, Nat.mul_comm]
      apply Nat.mul_le_mul_right
      rw [Nat.le_div_iff_mul_le (by positivity), Nat.mul_comm, ← hc]
      exact hle

/-- A quotient of at most 1 rounds to at most 1. -/
theorem F32.roundMag_le_one (p q : Nat) (hq : 0 < q) (h : p ≤ q * 2 ^ 149) :
    roundMag p q ≤ 2 ^ 149 := by
  rcases Nat.lt_or_eq_of_le h with hlt | heq
  · refine le_trans (F32.roundMag_le_ceil p q) ?_
    have hn : p / q < 2 ^ 149 := by
      rw [Nat.div_lt_iff_lt_mul hq, Nat.mul_comm]
      exact hlt
    have he : expOf (p / q) ≤ 149 := by
      rcases F32.expOf_lower (p / q) with h0 | h1
      · omega
      · have := (Nat.pow_lt_pow_iff_right (by decide)).mp (lt_of_le_of_lt h1 hn)
        omega
    have hsplit : (2 : Nat) ^ 149 = 2 ^ (149 - expOf (p / q)) * 2 ^ expOf (p / q) := by
      rw [← pow_add, Nat.sub_add_cancel he]
    rw [hsplit]
    apply Nat.mul_le_mul_right
    have hm : p / (q * 2 ^ expOf (p / q)) < 2 ^ (149 - expOf (p / q)) := by
      rw [Nat.div_lt_iff_lt_mul (by positivity)]
      calc p < q * 2 ^ 149 := hlt
        _ = 2 ^ (149 - expOf (p / q)) * (q * 2 ^ expOf (p / q)) := by
          rw [hsplit]; ring
    exact hm
  · have h1 : roundMag (2 ^ 149) 1 = 2 ^ 149 := by
      have h := F32.roundMag_exact 1 149 (by decide)
      rwa [one_mul] at h
    rw [heq, Nat.mul_comm, F32.roundMag_mul_right _ _ hq, h1]

theorem F32.roundMag_zero (q : Nat) (hq : 0 < q) : roundMag 0 q = 0 := by
  have he : expOf 0 = 0 := rfl
  unfold roundMag
  simp [he, hq]

theorem F32.inUnit_fin (a : Bool) (k : Nat) (hk : k ≤ 2 ^ 149) (ha : a = false ∨ k = 0) :
    (fin a k).InUnit := by
  rcases ha with ha | ha
  · subst ha
    refine ⟨(k : ℚ) / 2 ^ 149, rfl, by positivity, ?_⟩
    rw [div_le_one (by positivity)]
    exact_mod_cast hk
  · subst ha
    cases a
    · exact ⟨0, by simp [toRat], le_refl _, by norm_num⟩
    · exact ⟨0, by simp [toRat], le_refl _, by norm_num⟩

/-- The offset is in `[0, 1]` for a positive dimension: if `x` is a float32
number with `0 ≤ x ≤ w` for an integer `w > 0`, then the float32 quotient
`x / float32(w)` is finite and lies in `[0, 1]`. -/
theorem F32.div_ofInt_inUnit (x : F32) (w : Int) (hv : x.Valid) (hw : 0 < w)
    (hx : ∃ q : ℚ, x.toRat = some q ∧ 0 ≤ q ∧ q ≤ (w : ℚ)) :
    (x.div (ofInt w)).InUnit := by
  obtain ⟨q, hq, hq0, hqw⟩ := hx
  have hwn : ((w.natAbs : ℕ) : ℚ) = (w : ℚ) := by
    have h1 : ((w.natAbs : ℕ) : ℤ) = w := by omega
    rw [← Int.cast_natCast, h1]
  have hpos : (0 : ℚ) < 2 ^ 149 := by positivity
  match x, hv, hq with
  | fin a k, hv, hq =>
    obtain ⟨_, hgrid⟩ := hv
    -- the sign is positive unless the magnitude is 0, and the magnitude is at most w
    have hsign : a = false ∨ k = 0 := by
      cases a
      · left; rfl
      · right
        simp only [toRat, Option.some.injEq] at hq
        have h1 : (k : ℚ) / 2 ^ 149 ≤ 0 := by linarith
        have h2 : (k : ℚ) ≤ 0 := by
          have := (div_le_iff₀ hpos).mp h1
          simpa using this
        exact_mod_cast le_antisymm (by exact_mod_cast h2) (Nat.zero_le k)
    have hkw : k ≤ w.natAbs * 2 ^ 149 := by
      rcases hsign with ha | hk0
      · subst ha
        simp only [toRat, Option.some.injEq] at hq
        have h1 : (k : ℚ) / 2 ^ 149 ≤ (w : ℚ) := by rw [hq]; exact hqw
        have h2 : (k : ℚ) ≤ (w : ℚ) * 2 ^ 149 := (div_le_iff₀ hpos).mp h1
        rw [← hwn] at h2
        exact_mod_cast h2
      · rw [hk0]; exact Nat.zero_le _
    have hone : 2 ^ 149 ≤ roundMag (w.natAbs * 2 ^ 149) 1 := by
      apply F32.le_roundMag
      · have he : expOf (2 ^ 149) = 126 := by decide!
        rw [he]
        exact pow_dvd_pow 2 (by decide)
      · have : 1 ≤ w.natAbs := by omega
        calc 2 ^ 149 = 1 * 2 ^ 149 := (one_mul _).symm
          _ ≤ w.natAbs * 2 ^ 149 := Nat.mul_le_mul_right _ this
    have hkr : k ≤ roundMag (w.natAbs * 2 ^ 149) 1 := F32.le_roundMag _ _ hgrid hkw
    have hneg : decide (w < 0) = false := decide_eq_false (by omega)
    unfold ofInt ofMag
    rw [hneg]
    split
    · -- the dimension converts to a finite value
      rw [F32.div_fin_fin, if_neg (by omega), Bool.xor_false]
      have hle : roundMag (k * 2 ^ 149) (roundMag (w.natAbs * 2 ^ 149) 1) ≤ 2 ^ 149 := by
        apply F32.roundMag_le_one _ _ (by omega)
        exact Nat.mul_le_mul_right _ hkr
      rw [F32.ofMag_of_lt _ _ (lt_of_le_of_lt hle (by decide))]
      refine F32.inUnit_fin _ _ hle ?_
      rcases hsign with ha | hk0
      · left; exact ha
      · right
        rw [hk0, Nat.zero_mul]
        exact F32.roundMag_zero _ (by omega)
    · -- the dimension converts to +Inf
      exact F32.inUnit_fin _ 0 (Nat.zero_le _) (Or.inr rfl)

/-- The offset passed by `onPaint` for a viewport with positive dimensions and
a pointer within it has both components in `[0, 1]`. -/
theorem onPaint_offset_inUnit (lib : Library) (c : GLContext) (sz : SizeEvent) (s : State)
    (hx : s.touchX.Valid) (hy : s.touchY.Valid)
    (hw : 0 < sz.WidthPx) (hh : 0 < sz.HeightPx)
    (hpx : ∃ q : ℚ, s.touchX.toRat = some q ∧ 0 ≤ q ∧ q ≤ (sz.WidthPx : ℚ))
    (hpy : ∃ q : ℚ, s.touchY.toRat = some q ∧ 0 ≤ q ∧ q ≤ (sz.HeightPx : ℚ)) :
    ∃ x y, uniform2fCalls (onPaint lib (some c) sz s).out = [(s.offset, x, y)] ∧
      x.InUnit ∧ y.InUnit := by
  rw [onPaint_out]
  exact ⟨_, _, rfl, F32.div_ofInt_inUnit _ _ hx hw hpx, F32.div_ofInt_inUnit _ _ hy hh hpy⟩

/-- The encodings of the constants of the program: `0.01` is `0x3C23D70A`, `0.4`
is `0x3ECCCCCD`, `1` is `0x3F800000` and `0` is `0x00000000`. -/
theorem F32.bits_of_constants :
    (ofConst 1 100).bits = 0x3C23D70A ∧ (ofConst 4 10).bits = 0x3ECCCCCD ∧
    (ofConst 1 1).bits = 0x3F800000 ∧ (ofConst 0 1).bits = 0 := by
  decide!

theorem allAlong_nonzero :
    allAlong (fun g => g != F32.fin false 0) 100 (tickGreen (F32.fin false 0)) = true := by
  decide!

theorem greenAfter_ne_zero (r : Nat) (h0 : 0 < r) (h1 : r < 101) :
    greenAfter r ≠ F32.fin false 0 := by
  obtain ⟨i, rfl⟩ : ∃ i, r = i + 1 := ⟨r - 1, by omega⟩
  have h := allAlong_spec _ 100 _ allAlong_nonzero i (by omega)
  unfold greenAfter
  rw [Function.iterate_succ_apply]
  simpa using h

/-- The paint ticks of the loop are the iterates of `tickGreen`: as long as
`fps.Draw` returns, `n` internal paint events handled with a GL context advance
`green` by `n` ticks. -/
theorem mainLoop_paint_ticks (lib : Library) (c : GLContext) (f : FPS)
    (hd : ∀ h z, ∃ l, lib.fpsDraw h f z = some l) :
    ∀ (n : Nat) (s : State), s.glctx = some c → s.fps = some f →
      (mainLoop lib s (List.replicate n (.paint ⟨false⟩))).state?.map State.green =
        some (Nat.iterate tickGreen n s.green) := by
  intro n
  induction n with
  | zero => intro s _ _; rfl
  | succ n ih =>
    intro s hs hf
    have hdraw : ∃ l, lib.draw s.lib s.fps s.sz = some l := by
      unfold Library.draw
      split
      · exact ⟨_, rfl⟩
      · rw [hf]; exact hd _ _
    obtain ⟨l, hl⟩ := hdraw
    have h1 := ((mainStep_paint lib s ⟨false⟩).2 c hs rfl).1 l hl
    have h2 := ih { s with green := tickGreen s.green, lib := l } hs hf
    rw [List.replicate_succ, mainLoop, h1, Outcome.andThen_next]
    cases hl2 : mainLoop lib { s with green := tickGreen s.green, lib := l }
        (List.replicate n (.paint ⟨false⟩)) with
    | crash out => rw [hl2] at h2; simp [Outcome.state?] at h2
    | next t out =>
      rw [hl2] at h2
      simp only [Outcome.state?, Option.map_some', Option.some.injEq] at h2 ⊢
      rw [h2, Function.iterate_succ_apply]

/-- C2, as the code has it. Green-channel period: from `green = 0` the paint-tick
update returns to 0 after the `n`-th tick exactly when `n` is a multiple of 101;
the first return to 0 is on the 101st tick. -/
theorem green_period_101 (n : Nat) : greenAfter n = F32.zero ↔ 101 ∣ n := by
  rw [F32.zero_eq, greenAfter_mod]
  constructor
  · intro h
    by_contra hd
    have hr : 0 < n % 101 := by
      rcases Nat.eq_zero_or_pos (n % 101) with h0 | h0
      · exact absurd (Nat.dvd_of_mod_eq_zero h0) hd
      · exact h0
    exact greenAfter_ne_zero _ hr (Nat.mod_lt _ (by decide)) h
  · intro h
    rw [Nat.mod_eq_zero_of_dvd h]
    rfl

/-- C2, as stated, fails at `n = 100`: after the 100th tick `green` is
`16777205 / 2^24 = 0.99999934`, which is not greater than 1, so it is not reset. -/
theorem green_not_reset_at_100 :
    greenAfter 100 = F32.fin false (16777205 * 2 ^ 125) ∧
    ¬ (greenAfter 100 = F32.zero ↔ 100 ∣ 100) := by
  decide!

/-! ## Evaluations -/

theorem F32.zero_div_zero : (F32.fin false 0).div (F32.ofInt 0) = F32.nan := by decide!

theorem tdiv_samples : Int.tdiv 1080 2 = 540 ∧ Int.tdiv 1920 2 = 960 := by decide

/-- The run up to the failed start: the context is stored, `fps` and `images`
stay nil, whatever the library does. -/
theorem failedStart_run (lib : Library) :
    mainLoop lib State.initial failedStartEvents =
      .next failedStartState
        [.log (.lifecycleEvent ⟨.CrossOn, some failingContext⟩), .log .crossOn,
         .createProgram vertexShader fragmentShader, .log (.programError "link error"),
         .send ⟨false⟩, .log (.sizeEvent ⟨1080, 1920⟩)] := by
  simp [mainLoop, mainStep, onStart, failedStartEvents, failingContext, Outcome.andThen,
    State.initial, failedStartState, tdiv_samples.1, tdiv_samples.2]

/-- C3 at the empty viewport: a paint handled before any size event (`sz` still
the zero value, the pointer at `(0, 0)`, so within the viewport) passes NaN for
both components of the offset, the value of the float32 division `0 / 0`. -/
theorem offset_nan_on_empty_viewport (lib : Library) :
    (mainLoop lib State.initial [.lifecycle ⟨.CrossOn, some workingContext⟩]).state?.map
        (fun s => (s.touchX, s.touchY, s.sz)) =
      some (F32.fin false 0, F32.fin false 0, ⟨0, 0⟩) ∧
    uniform2fCalls (mainLoop lib State.initial
        [.lifecycle ⟨.CrossOn, some workingContext⟩, .paint ⟨false⟩]).out =
      [(⟨1⟩, F32.nan, F32.nan)] ∧
    (F32.fin false 0).div (F32.ofInt 0) = F32.nan := by
  refine ⟨?_, ?_, F32.zero_div_zero⟩
  · simp [mainLoop, mainStep, onStart, workingContext, Outcome.andThen, Outcome.state?,
      State.initial]
  · simp [mainLoop, mainStep, onStart, onPaint, Library.draw, paintCalls, workingContext,
      Outcome.andThen, Outcome.out, State.initial, uniform2fCalls, F32.zero_div_zero]

/-- C10 after a failed program creation: `onStart` returns early with `fps` and
`images` still nil and the context set, so the next paint event calls
`fps.Draw` on a nil receiver, and the next teardown calls `fps.Release` on a
nil receiver, where the program panics before `images.Release`. -/
theorem nil_resources_after_failed_start (lib : Library) :
    (mainLoop lib State.initial [.lifecycle ⟨.CrossOn, some failingContext⟩]).state?.map
        (fun s => (s.glctx, s.fps, s.images)) = some (some failingContext, none, none) ∧
    Action.fpsDraw none ⟨0, 0⟩ ∈ (mainLoop lib State.initial
        [.lifecycle ⟨.CrossOn, some failingContext⟩, .paint ⟨false⟩]).out ∧
    Action.fpsRelease none ∈ (mainLoop lib State.initial
        [.lifecycle ⟨.CrossOn, some failingContext⟩, .lifecycle ⟨.CrossOff, none⟩]).out ∧
    (mainLoop lib State.initial
        [.lifecycle ⟨.CrossOn, some failingContext⟩, .lifecycle ⟨.CrossOff, none⟩]).state? =
      none ∧
    Action.imagesRelease none ∉ (mainLoop lib State.initial
        [.lifecycle ⟨.CrossOn, some failingContext⟩, .lifecycle ⟨.CrossOff, none⟩]).out := by
  refine ⟨?_, ?_, ?_, ?_, ?_⟩
  · simp [mainLoop, mainStep, onStart, failingContext, Outcome.andThen, Outcome.state?,
      State.initial]
  · simp [mainLoop, mainStep, onStart, onPaint, Library.draw, paintCalls, failingContext,
      Outcome.andThen, Outcome.out, State.initial]
  · simp [mainLoop, mainStep, onStart, onStop, Library.release, failingContext,
      Outcome.andThen, Outcome.out, State.initial]
  · simp [mainLoop, mainStep, onStart, onStop, Library.release, failingContext,
      Outcome.andThen, Outcome.state?, State.initial]
  · simp [mainLoop, mainStep, onStart, onStop, Library.release, failingContext,
      Outcome.andThen, Outcome.out, State.initial]

/-- C7 after a failed program creation: with the context stored, `fps` nil and
a viewport of 1080 by 1920 pixels, an internal paint event makes the loop call
`onPaint`, which issues its GL calls and panics in `fps.Draw`; the loop neither
publishes nor sends a paint event. -/
theorem paint_after_failed_start_panics (lib : Library) :
    (mainLoop lib State.initial failedStartEvents).state? = some failedStartState ∧
    (failedStartState.glctx ≠ none ∧ (PaintEvent.mk false).External = false) ∧
    mainStep lib failedStartState (.paint ⟨false⟩) =
      .crash (.log (.paintEvent ⟨false⟩) :: paintCalls failedStartState.sz failedStartState) ∧
    Action.publish ∉ (mainStep lib failedStartState (.paint ⟨false⟩)).out ∧
    Action.send ⟨false⟩ ∉ (mainStep lib failedStartState (.paint ⟨false⟩)).out := by
  have h : mainStep lib failedStartState (.paint ⟨false⟩) =
      .crash (.log (.paintEvent ⟨false⟩) :: paintCalls failedStartState.sz failedStartState) := by
    simp [mainStep, onPaint, Library.draw, failedStartState, Outcome.andThen]
  refine ⟨by rw [failedStart_run]; rfl, by simp [failedStartState], h, ?_, ?_⟩
  · rw [h]; simp [Outcome.out, paintCalls]
  · rw [h]; simp [Outcome.out, paintCalls]

/-- C9 after a failed program creation: with the context stored and `fps` nil, a
lifecycle event that crosses `StageVisible` off makes the loop call `onStop`,
which issues `DeleteProgram` and `DeleteBuffer` and panics in `fps.Release`;
`images.Release` is not reached and the GL context is not set to nil. -/
theorem teardown_after_failed_start_panics (lib : Library) :
    (mainLoop lib State.initial failedStartEvents).state? = some failedStartState ∧
    failedStartState.glctx = some failingContext ∧
    mainStep lib failedStartState (.lifecycle ⟨.CrossOff, none⟩) =
      .crash [.log (.lifecycleEvent ⟨.CrossOff, none⟩), .log .crossOff,
        .deleteProgram failedStartState.program, .deleteBuffer failedStartState.buf,
        .fpsRelease none] := by
  refine ⟨by rw [failedStart_run]; rfl, rfl, ?_⟩
  simp [mainStep, onStop, Library.release, failedStartState, Outcome.andThen]

/-! ## The handlers -/

/-- C6. Paint-tick draw sequence: with a GL context, one call of `onPaint`
issues exactly these calls in this order, whatever the last of them does:
`ClearColor(1,1,1,1)`, `Clear(COLOR_BUFFER_BIT)`, `UseProgram(program)`,
`Uniform4f(color, 0, g, 0, 1)` with `g` the old `green` advanced by 0.01 and
reset to 0 when the sum exceeds 1, `Uniform2f(offset, touchX/WidthPx,
touchY/HeightPx)`, `BindBuffer`, `EnableVertexAttribArray(position)`,
`VertexAttribPointer` with 3 coordinates per vertex, one
`DrawArrays(TRIANGLE_STRIP, 0, 4)`, `DisableVertexAttribArray(position)` and
`fps.Draw(sz)`; the constants passed are the float32 values 0 and 1. It returns
exactly when `fps.Draw` does, and then has changed `green` and nothing else of
the program's variables. -/
theorem onPaint_draw_sequence (lib : Library) (c : GLContext) (sz : SizeEvent) (s : State) :
    (onPaint lib (some c) sz s).out =
        [.clearColor F32.one F32.one F32.one F32.one,
         .clear .COLOR_BUFFER_BIT,
         .useProgram s.program,
         .uniform4f s.color F32.zero (tickGreen s.green) F32.zero F32.one,
         .uniform2f s.offset (s.touchX.div (F32.ofInt sz.WidthPx))
           (s.touchY.div (F32.ofInt sz.HeightPx)),
         .bindBuffer .ARRAY_BUFFER s.buf,
         .enableVertexAttribArray s.position,
         .vertexAttribPointer s.position 3 .FLOAT false 0 0,
         .drawArrays .TRIANGLE_STRIP 0 4,
         .disableVertexAttribArray s.position,
         .fpsDraw s.fps sz] ∧
    (onPaint lib (some c) sz s).state? =
      (lib.draw s.lib s.fps sz).map
        (fun l => { s with green := tickGreen s.green, lib := l }) ∧
    tickGreen s.green =
      (if (s.green.add (F32.ofConst 1 100)).gt F32.one then F32.zero
       else s.green.add (F32.ofConst 1 100)) ∧
    (∀ mode first count,
      Action.drawArrays mode first count ∈ (onPaint lib (some c) sz s).out →
      mode = .TRIANGLE_STRIP ∧ first = 0 ∧ count = 4) ∧
    F32.zero.toRat = some 0 ∧ F32.one.toRat = some 1 := by
  refine ⟨onPaint_out lib c sz s, ?_, rfl, ?_, ?_, ?_⟩
  · unfold onPaint
    cases lib.draw s.lib s.fps sz <;> rfl
  · intro mode first count h
    rw [onPaint_out] at h
    simp [paintCalls, vertexCount] at h
    exact h
  · rw [F32.zero_eq]
    simp [F32.toRat]
  · rw [F32.one_eq]
    show some ((((2 : ℕ) ^ 149 : ℕ) : ℚ) / 2 ^ 149) = some 1
    rw [Nat.cast_pow, Nat.cast_ofNat, div_self (by positivity)]

/-- C8, as the code has it. Program-creation failure aborts setup: when
`glutil.CreateProgram` returns an error on a GL context, `onStart` logs the
error and returns having made no other call, with `buf`, `position`, `color`,
`offset`, `images` and `fps` (and everything but `program`) unchanged. When it
returns no error, `onStart` creates, binds and fills the buffer with
`triangleData`, resolves `position`, `color` and `offset` and calls
`glutil.NewImages`; when that call returns, `images` and `fps` are created and
`onStart` returns; when it panics, `onStart` ends there. The outcome does not
depend on the library otherwise. -/
theorem onStart_program_failure (lib : Library) (c : GLContext) (s : State) :
    (∀ p err, c.createProgram = (p, some err) →
      onStart lib (some c) s =
        .next { s with program := p }
          [.createProgram vertexShader fragmentShader, .log (.programError err)]) ∧
    (∀ p im, c.createProgram = (p, none) → c.newImages = some im →
      onStart lib (some c) s =
        .next { s with
            program := p
            buf := c.createBuffer
            position := c.positionLocation
            color := c.colorLocation
            offset := c.offsetLocation
            images := some im
            fps := some c.newFPS
            lib := lib.created s.lib im c.newFPS }
          [.createProgram vertexShader fragmentShader,
           .createBuffer,
           .bindBuffer .ARRAY_BUFFER c.createBuffer,
           .bufferData .ARRAY_BUFFER triangleData .STATIC_DRAW,
           .getAttribLocation p "position",
           .getUniformLocation p "color",
           .getUniformLocation p "offset",
           .newImages,
           .newFPS (some im)]) ∧
    (∀ p, c.createProgram = (p, none) → c.newImages = none →
      onStart lib (some c) s =
        .crash
          [.createProgram vertexShader fragmentShader,
           .createBuffer,
           .bindBuffer .ARRAY_BUFFER c.createBuffer,
           .bufferData .ARRAY_BUFFER triangleData .STATIC_DRAW,
           .getAttribLocation p "position",
           .getUniformLocation p "color",
           .getUniformLocation p "offset",
           .newImages]) ∧
    triangleData =
      [0, 0, 0, 0, 205, 204, 204, 62, 0, 0, 0, 0,
       205, 204, 204, 62, 205, 204, 204, 62, 0, 0, 0, 0,
       0, 0, 0, 0, 0, 0, 0, 0, 0, 0, 0, 0,
       205, 204, 204, 62, 0, 0, 0, 0, 0, 0, 0, 0] := by
  refine ⟨?_, ?_, ?_, by decide!⟩
  · intro p err h
    simp [onStart, h]
  · intro p im h hi
    simp [onStart, h, hi]
  · intro p h hi
    simp [onStart, h, hi]

/-- The three cases of `onStart`: on `failingContext` from the initial state, on
`workingContext` from `sampleState`, and on `imagelessContext`. -/
theorem onStart_program_failure_witness :
    onStart Library.tracking (some failingContext) State.initial =
        .next { State.initial with program := ⟨false, 0⟩ }
          [.createProgram vertexShader fragmentShader, .log (.programError "link error")] ∧
    onStart Library.tracking (some workingContext) sampleState =
        .next { sampleState with
            program := ⟨true, 1⟩
            buf := workingContext.createBuffer
            position := workingContext.positionLocation
            color := workingContext.colorLocation
            offset := workingContext.offsetLocation
            images := some ⟨1⟩
            fps := some workingContext.newFPS
            lib := Library.tracking.created sampleState.lib ⟨1⟩ workingContext.newFPS }
          [.createProgram vertexShader fragmentShader,
           .createBuffer,
           .bindBuffer .ARRAY_BUFFER workingContext.createBuffer,
           .bufferData .ARRAY_BUFFER triangleData .STATIC_DRAW,
           .getAttribLocation ⟨true, 1⟩ "position",
           .getUniformLocation ⟨true, 1⟩ "color",
           .getUniformLocation ⟨true, 1⟩ "offset",
           .newImages,
           .newFPS (some ⟨1⟩)] ∧
    onStart Library.tracking (some imagelessContext) State.initial =
        .crash
          [.createProgram vertexShader fragmentShader,
           .createBuffer,
           .bindBuffer .ARRAY_BUFFER imagelessContext.createBuffer,
           .bufferData .ARRAY_BUFFER triangleData .STATIC_DRAW,
           .getAttribLocation ⟨true, 1⟩ "position",
           .getUniformLocation ⟨true, 1⟩ "color",
           .getUniformLocation ⟨true, 1⟩ "offset",
           .newImages] :=
  ⟨(onStart_program_failure Library.tracking failingContext State.initial).1 ⟨false, 0⟩ "link error" rfl,
   (onStart_program_failure Library.tracking workingContext sampleState).2.1 ⟨true, 1⟩ ⟨1⟩ rfl rfl,
   (onStart_program_failure Library.tracking imagelessContext State.initial).2.2.1 ⟨true, 1⟩ rfl rfl⟩

/-- C8, as stated, fails on a context on which program creation succeeds and
`glutil.NewImages` panics: the buffer is created and filled and the locations
are looked up, but `images` and `fps` are not created and `onStart` does not
return. -/
theorem onStart_panics_without_images :
    imagelessContext.createProgram = (⟨true, 1⟩, none) ∧
    (onStart Library.tracking (some imagelessContext) State.initial).state? = none ∧
    (onStart Library.tracking (some imagelessContext) State.initial).out =
      [.createProgram vertexShader fragmentShader,
       .createBuffer,
       .bindBuffer .ARRAY_BUFFER ⟨1⟩,
       .bufferData .ARRAY_BUFFER triangleData .STATIC_DRAW,
       .getAttribLocation ⟨true, 1⟩ "position",
       .getUniformLocation ⟨true, 1⟩ "color",
       .getUniformLocation ⟨true, 1⟩ "offset",
       .newImages] ∧
    Action.newFPS (some ⟨1⟩) ∉ (onStart Library.tracking (some imagelessContext) State.initial).out := by
  decide!

/-! ## Teardown -/

theorem mainStep_without_context (lib : Library) (g : F32) (s : State) (e : Event)
    (he : e.isCrossOn = false) (hs : s.green = g ∧ s.glctx = none) :
    (∀ a ∈ (mainStep lib s e).out, a.isGL = false) ∧
    ∀ t, (mainStep lib s e).state? = some t → t.green = g ∧ t.glctx = none := by
  obtain ⟨hgreen, hctx⟩ := hs
  cases e with
  | lifecycle e =>
    rcases e with ⟨cr, dc⟩
    cases cr with
    | CrossNone => simp [mainStep, Outcome.out, Outcome.state?, Action.isGL, hgreen, hctx]
    | CrossOn => simp [Event.isCrossOn] at he
    | CrossOff =>
      simp [mainStep, onStop, hctx, Outcome.andThen, Outcome.out, Outcome.state?, Action.isGL]
  | size e => simp [mainStep, Outcome.out, Outcome.state?, Action.isGL, hgreen, hctx]
  | paint e => simp [mainStep, Outcome.out, Outcome.state?, Action.isGL, hgreen, hctx]
  | touch e => simp [mainStep, Outcome.out, Outcome.state?, Action.isGL, hgreen, hctx]
  | other => simp [mainStep, Outcome.out, Outcome.state?, Action.isGL, hgreen, hctx]

/-- Teardown with live resources: when `fps.Release` and `images.Release`
return, a lifecycle event that crosses `StageVisible` off, handled with a GL
context, issues the four calls of `onStop` and sets the GL context to nil. -/
theorem mainStep_cross_off (lib : Library) (s : State) (c : GLContext) (e : LifecycleEvent)
    (h h2 : Nat) (hs : s.glctx = some c) (he : e.Crosses = .CrossOff)
    (h1 : lib.release s.lib s.fps = some h) (h3 : lib.imagesRelease h s.images = some h2) :
    mainStep lib s (.lifecycle e) =
      .next { s with glctx := none, lib := h2 }
        [.log (.lifecycleEvent e), .log .crossOff, .deleteProgram s.program,
         .deleteBuffer s.buf, .fpsRelease s.fps, .imagesRelease s.images] := by
  simp [mainStep, onStop, hs, he, h1, h3, Outcome.andThen]

theorem mainStep_cross_off_context (lib : Library) (s t : State) (e : LifecycleEvent)
    (out : List Action) (he : e.Crosses = .CrossOff)
    (h : mainStep lib s (.lifecycle e) = .next t out) :
    t.glctx = none := by
  simp only [mainStep, he] at h
  cases ho : onStop lib s.glctx s with
  | crash o => rw [ho] at h; simp [Outcome.andThen] at h
  | next u o =>
    rw [ho] at h
    simp only [Outcome.andThen, Outcome.next.injEq] at h
    rw [← h.1]

/-- No drawing while invisible: after a handled lifecycle event that crosses
`StageVisible` off, as long as no event crosses it on, the loop issues no GL
call and `green` keeps its value; a lifecycle event that crosses in neither
direction changes no state. -/
theorem no_draw_while_invisible (lib : Library) :
    (∀ (s t : State) (e : LifecycleEvent) (out : List Action) (es : List Event),
      e.Crosses = .CrossOff → mainStep lib s (.lifecycle e) = .next t out →
      (∀ x ∈ es, x.isCrossOn = false) →
      (∀ a ∈ (mainLoop lib t es).out, a.isGL = false) ∧
      ∀ u, (mainLoop lib t es).state? = some u → u.green = t.green ∧ u.glctx = none) ∧
    (∀ (s : State) (e : LifecycleEvent), e.Crosses = .CrossNone →
      mainStep lib s (.lifecycle e) =
        .next s [.log (.lifecycleEvent e), .log .crossOther]) := by
  refine ⟨?_, ?_⟩
  · intro s t e out es he h hes
    exact mainLoop_invariant lib (fun x => x.isCrossOn = false)
      (fun u => u.green = t.green ∧ u.glctx = none) (fun a => a.isGL = false)
      (mainStep_without_context lib t.green) es t hes
      ⟨rfl, mainStep_cross_off_context lib s t e out he h⟩
  · intro s e he
    simp [mainStep, he]

/-! ## Resize and pointer tracking -/

/-- C4, as the code has it. Resize recentring: a size event is always handled,
stores the event in `sz` and sets `touchX = float32(WidthPx / 2)` and
`touchY = float32(HeightPx / 2)` with Go's integer division, changing nothing
else. For a dimension of magnitude at most `2^25` the stored value is exactly
that integer quotient; if the dimension is moreover even it is exactly half of
it, and, when the dimension is not 0, its float32 quotient by the dimension is
exactly `1/2`. -/
theorem resize_recentres (lib : Library) (s : State) (e : SizeEvent) :
    ∃ t, mainStep lib s (.size e) = .next t [.log (.sizeEvent e)] ∧
      t = { s with
            sz := e
            touchX := F32.ofInt (Int.tdiv e.WidthPx 2)
            touchY := F32.ofInt (Int.tdiv e.HeightPx 2) } ∧
      (e.WidthPx.natAbs ≤ 2 ^ 25 →
        t.touchX.toRat = some ((Int.tdiv e.WidthPx 2 : Int) : ℚ) ∧
        (2 ∣ e.WidthPx → t.touchX.toRat = some ((e.WidthPx : ℚ) / 2) ∧
          (e.WidthPx ≠ 0 →
            (t.touchX.div (F32.ofInt t.sz.WidthPx)).toRat = some (1 / 2)))) ∧
      (e.HeightPx.natAbs ≤ 2 ^ 25 →
        t.touchY.toRat = some ((Int.tdiv e.HeightPx 2 : Int) : ℚ) ∧
        (2 ∣ e.HeightPx → t.touchY.toRat = some ((e.HeightPx : ℚ) / 2) ∧
          (e.HeightPx ≠ 0 →
            (t.touchY.div (F32.ofInt t.sz.HeightPx)).toRat = some (1 / 2)))) :=
  ⟨_, rfl, rfl, F32.ofInt_half e.WidthPx, F32.ofInt_half e.HeightPx⟩

/-- A size event of 1080 by 1921 pixels: the even width is halved exactly, the
odd height is truncated. -/
theorem resize_recentres_witness :
    ∃ t, mainStep Library.tracking sampleState (.size ⟨1080, 1921⟩) =
        .next t [.log (.sizeEvent ⟨1080, 1921⟩)] ∧
      t.touchX.toRat = some ((1080 : ℚ) / 2) ∧
      (t.touchX.div (F32.ofInt t.sz.WidthPx)).toRat = some (1 / 2) ∧
      t.touchY.toRat = some ((Int.tdiv 1921 2 : Int) : ℚ) := by
  obtain ⟨t, h1, h2, h3, h4⟩ := resize_recentres Library.tracking sampleState ⟨1080, 1921⟩
  have hw := (h3 (by decide)).2 (by decide)
  refine ⟨t, h1, ?_, ?_, (h4 (by decide)).1⟩
  · simpa using hw.1
  · exact hw.2 (by decide)

/-- C4, as stated, fails for an odd dimension: after a size event of 3 by 5
pixels the stored position is `(1, 2)`, not the midpoint `(3/2, 5/2)`, and
`touchX / WidthPx` is the float32 nearest to `1/3`, not `1/2`. -/
theorem resize_odd_not_midpoint :
    (mainStep Library.tracking State.initial (.size ⟨3, 5⟩)).state?.map
        (fun t => (t.touchX, t.touchY)) =
      some (F32.fin false (1 * 2 ^ 149), F32.fin false (2 * 2 ^ 149)) ∧
    (F32.ofFrac 3 2, F32.ofFrac 5 2) = (F32.fin false (3 * 2 ^ 148), F32.fin false (5 * 2 ^ 148)) ∧
    (F32.fin false (1 * 2 ^ 149)).div (F32.ofInt 3) = F32.fin false (11184811 * 2 ^ 124) ∧
    F32.fin false (11184811 * 2 ^ 124) ≠ F32.ofConst 1 2 := by
  decide!

theorem mainStep_pointer (lib : Library) (s : State) (e : Event) (t : State)
    (h : (mainStep lib s e).state? = some t) :
    (t.touchX, t.touchY) = pointerAfter (s.touchX, s.touchY) [e] ∧
    t.sz = sizeAfter s.sz [e] := by
  cases e with
  | lifecycle e =>
    rcases e with ⟨cr, dc⟩
    cases cr with
    | CrossNone =>
      simp only [mainStep, Outcome.state?, Option.some.injEq] at h
      subst h
      simp [pointerAfter, sizeAfter, Event.isPointer, Event.isSize]
    | CrossOn =>
      simp only [mainStep] at h
      cases ho : onStart lib dc { s with glctx := dc } with
      | crash o => rw [ho] at h; simp [Outcome.andThen, Outcome.state?] at h
      | next u o =>
        rw [ho] at h
        simp only [Outcome.andThen, Outcome.state?, Option.some.injEq] at h
        subst h
        obtain ⟨_, hx, hy, hz, _⟩ := onStart_state lib dc _ u o ho
        simp [pointerAfter, sizeAfter, Event.isPointer, Event.isSize, hx, hy, hz]
    | CrossOff =>
      simp only [mainStep] at h
      cases ho : onStop lib s.glctx s with
      | crash o => rw [ho] at h; simp [Outcome.andThen, Outcome.state?] at h
      | next u o =>
        rw [ho] at h
        simp only [Outcome.andThen, Outcome.state?, Option.some.injEq] at h
        subst h
        obtain ⟨l, hl⟩ := onStop_state lib s.glctx s u o ho
        subst hl
        simp [pointerAfter, sizeAfter, Event.isPointer, Event.isSize]
  | size e =>
    simp only [mainStep, Outcome.state?, Option.some.injEq] at h
    subst h
    simp [pointerAfter, sizeAfter, Event.isPointer, Event.isSize]
  | paint e =>
    cases hg : s.glctx with
    | none =>
      simp only [mainStep, hg, true_or, if_true, Outcome.state?, Option.some.injEq] at h
      subst h
      simp [pointerAfter, sizeAfter, Event.isPointer, Event.isSize]
    | some c =>
      cases hx : e.External with
      | true =>
        simp [mainStep, hg, hx, Outcome.state?] at h
        subst h
        simp [pointerAfter, sizeAfter, Event.isPointer, Event.isSize]
      | false =>
        cases hd : lib.draw s.lib s.fps s.sz with
        | none => simp [mainStep, onPaint, hg, hx, hd, Outcome.andThen, Outcome.state?] at h
        | some l =>
          simp [mainStep, onPaint, hg, hx, hd, Outcome.andThen, Outcome.state?] at h
          subst h
          simp [pointerAfter, sizeAfter, Event.isPointer, Event.isSize]
  | touch e =>
    simp only [mainStep, Outcome.state?, Option.some.injEq] at h
    subst h
    simp [pointerAfter, sizeAfter, Event.isPointer, Event.isSize]
  | other =>
    simp only [mainStep, Outcome.state?, Option.some.injEq] at h
    subst h
    simp [pointerAfter, sizeAfter, Event.isPointer, Event.isSize]

theorem pointerAfter_cons (d : F32 × F32) (e : Event) (es : List Event) :
    pointerAfter d (e :: es) = pointerAfter (pointerAfter d [e]) es := by
  unfold pointerAfter
  rw [List.reverse_cons, List.find?_append]
  cases h : es.reverse.find? Event.isPointer with
  | some x =>
    have hx := List.find?_some h
    cases x <;> first | rfl | simp [Event.isPointer] at hx
  | none => cases e <;> rfl

theorem sizeAfter_cons (d : SizeEvent) (e : Event) (es : List Event) :
    sizeAfter d (e :: es) = sizeAfter (sizeAfter d [e]) es := by
  unfold sizeAfter
  rw [List.reverse_cons, List.find?_append]
  cases h : es.reverse.find? Event.isSize with
  | some x =>
    have hx := List.find?_some h
    cases x <;> first | rfl | simp [Event.isSize] at hx
  | none => cases e <;> rfl

/-- The loop keeps in `touchX`, `touchY` and `sz` what the history says. -/
theorem mainLoop_pointer (lib : Library) :
    ∀ (es : List Event) (s t : State), (mainLoop lib s es).state? = some t →
      (t.touchX, t.touchY) = pointerAfter (s.touchX, s.touchY) es ∧
      t.sz = sizeAfter s.sz es := by
  intro es
  induction es with
  | nil =>
    intro s t h
    simp only [mainLoop, Outcome.state?, Option.some.injEq] at h
    subst h
    exact ⟨rfl, rfl⟩
  | cons e es ih =>
    intro s t h
    unfold mainLoop at h
    cases hm : mainStep lib s e with
    | crash out => rw [hm] at h; simp [Outcome.andThen, Outcome.state?] at h
    | next s1 out =>
      rw [hm, Outcome.andThen_next] at h
      have hs1 := mainStep_pointer lib s e s1 (by rw [hm]; rfl)
      cases hl : mainLoop lib s1 es with
      | crash out2 => rw [hl] at h; simp [Outcome.state?] at h
      | next s2 out2 =>
        rw [hl] at h
        simp only [Outcome.state?, Option.some.injEq] at h
        subst h
        have h2 := ih s1 s2 (by rw [hl]; rfl)
        rw [pointerAfter_cons, sizeAfter_cons, ← hs1.1, ← hs1.2]
        exact h2

/-- C5, as the code has it. Position tracks the last pointer event: whatever
the library does, at every drawn paint tick the one `Uniform2f` call sets the
offset uniform to `(x / WidthPx, y / HeightPx)` in float32, where `(x, y)` are
the coordinates of the most recent touch event if it came after the most recent
size event, and `(float32(WidthPx / 2), float32(HeightPx / 2))` with integer
division of the most recent size event otherwise, `(WidthPx, HeightPx)` being
the most recent size event; before the first such event the position is
`(0, 0)` and the size is 0 by 0. A touch event overwrites `touchX` and `touchY`
with its `X` and `Y`, changes nothing else and issues no call but the log
line. -/
theorem offset_tracks_pointer (lib : Library) :
    (∀ (es : List Event) (s : State) (c : GLContext) (e : PaintEvent),
      (mainLoop lib State.initial es).state? = some s → s.glctx = some c →
      e.External = false →
      uniform2fCalls (mainStep lib s (.paint e)).out =
        [(s.offset,
          (lastPointer es).1.div (F32.ofInt (lastSize es).WidthPx),
          (lastPointer es).2.div (F32.ofInt (lastSize es).HeightPx))]) ∧
    (∀ (s : State) (e : TouchEvent),
      mainStep lib s (.touch e) =
        .next { s with touchX := e.X, touchY := e.Y } [.log (.touchEvent e)]) := by
  refine ⟨?_, fun _ _ => rfl⟩
  intro es s c e h hc hx
  obtain ⟨h1, h2⟩ := mainLoop_pointer lib es State.initial s h
  have hX : s.touchX = (lastPointer es).1 := congrArg Prod.fst h1
  have hY : s.touchY = (lastPointer es).2 := congrArg Prod.snd h1
  have hS : s.sz = lastSize es := h2
  rw [← hX, ← hY, ← hS]
  cases hd : lib.draw s.lib s.fps s.sz <;>
    simp [mainStep, onPaint, hc, hx, hd, paintCalls, Outcome.andThen, Outcome.out,
      uniform2fCalls]

/-- The offset drawn after `sampleEvents`: the last touch position over the last
size. -/
theorem offset_tracks_pointer_witness :
    uniform2fCalls (mainStep Library.tracking sampleState (.paint ⟨false⟩)).out =
      [(sampleState.offset,
        (lastPointer sampleEvents).1.div (F32.ofInt (lastSize sampleEvents).WidthPx),
        (lastPointer sampleEvents).2.div (F32.ofInt (lastSize sampleEvents).HeightPx))] ∧
    lastPointer sampleEvents = (F32.ofConst 270 1, F32.ofConst 480 1) ∧
    lastSize sampleEvents = ⟨1080, 1920⟩ :=
  ⟨(offset_tracks_pointer Library.tracking).1 sampleEvents sampleState workingContext ⟨false⟩
    (by decide!) rfl rfl, by decide!, by decide!⟩

/-- C5, as stated, fails after a size event with odd dimensions: with a viewport
of 3 by 3 pixels and no touch since, the offset passed is the float32 nearest
to `1/3` in both components, whereas the midpoint `(3/2, 3/2)` divided by the
size is `1/2`. -/
theorem offset_not_midpoint_on_odd_size :
    uniform2fCalls (mainLoop Library.tracking State.initial
        [.lifecycle ⟨.CrossOn, some workingContext⟩, .size ⟨3, 3⟩, .paint ⟨false⟩]).out =
      [(⟨1⟩, F32.fin false (11184811 * 2 ^ 124), F32.fin false (11184811 * 2 ^ 124))] ∧
    midpointPointer [.lifecycle ⟨.CrossOn, some workingContext⟩, .size ⟨3, 3⟩] =
      (F32.fin false (3 * 2 ^ 148), F32.fin false (3 * 2 ^ 148)) ∧
    (F32.fin false (3 * 2 ^ 148)).div (F32.ofInt 3) = F32.fin false (2 ^ 148) ∧
    F32.fin false (11184811 * 2 ^ 124) ≠ F32.fin false (2 ^ 148) := by
  decide!

end GomobileTest
